import Mathlib

/-!
# FormControl (src/js/components/formControl.jsx)

A shallow embedding of the field controller of the react-ui repository: the
control registry (`controls`, `FormControl.register`), the hint derivation
(`getHint`, `setHint`), the validation pass (`validate`, `validatePass`,
`validateFail`, `getTip`), the event handlers and the two render functions.

Conventions of the embedding

* JavaScript values are the type `JsVal`. A number is NaN, an infinity, or a
  double given by its exact decimal expansion (`Dec`, mantissa over a power of
  ten); a numeral in a text (`parseFloat`) and a numeric prop written as a
  decimal are rounded to the nearest double, ties to even (`toDouble`).
* The table `controls` is a plain object: a read `controls[name]` that finds no
  own entry goes on to the prototype, and the name `__proto__` reads and
  writes the prototype itself (`Registry.get`, `Registry.set`).
* `this.setState` is applied at once, as a record update; the state after a
  method is the merge of its `setState` calls in order.
* `this.refs.control` is the mounted underlying control (`Control`).
* The helpers imported from `../utils/objects`, `../utils/strings`,
  `../utils/regs` and `../lang` are not part of the two source files; they are
  the fields of `Env`, over which the general theorems quantify.
-/

namespace FormControl

/-! ## JavaScript values -/

/-- A finite number `mant / 10 ^ scale`. -/
structure Dec where
  mant : Int
  scale : Nat
  deriving DecidableEq, Repr

/-- Strict order of two decimal fractions, by cross multiplication. -/
def Dec.lt (a b : Dec) : Bool :=
  decide (a.mant * 10 ^ b.scale < b.mant * 10 ^ a.scale)

/-- The integer `n` as a decimal fraction. -/
def Dec.ofInt (n : Int) : Dec := ⟨n, 0⟩

/-- A JavaScript number. -/
inductive JsNum where
  | nan
  | posInf
  | negInf
  | fin (d : Dec)
  deriving DecidableEq, Repr

/-- The relational operator `a < b` on numbers: false as soon as one side is NaN. -/
def JsNum.lt : JsNum → JsNum → Bool
  | .nan, _ => false
  | _, .nan => false
  | .fin a, .fin b => Dec.lt a b
  | .negInf, .negInf => false
  | .negInf, _ => true
  | _, .negInf => false
  | .posInf, _ => false
  | .fin _, .posInf => true

/-- The natural number `n` as a JavaScript number. -/
def JsNum.ofNat (n : Nat) : JsNum := .fin (Dec.ofInt n)

/-- The decimal `m / 10 ^ k` with its trailing zeros removed. -/
def stripZeros (m : Int) : Nat → Dec
  | 0 => ⟨m, 0⟩
  | k + 1 => if m % 10 = 0 then stripZeros (m / 10) k else ⟨m, k + 1⟩

/-- The integer nearest to `num / den`, the even one of the two on a tie. -/
def roundHalfEven (num den : Nat) : Nat :=
  let q := num / den
  let r := num % den
  if 2 * r < den then q
  else if den < 2 * r then q + 1
  else if q % 2 = 0 then q else q + 1

/-- The number of binary digits of `n` (`fuel` at least that number). -/
def bitLength : Nat → Nat → Nat
  | 0, _ => 0
  | fuel + 1, n => if n = 0 then 0 else bitLength fuel (n / 2) + 1

/-- The integer part of the binary logarithm of `a / b`, for positive `a`, `b`. -/
def floorLog2Ratio (a b : Nat) : Int :=
  let l : Int := (bitLength a a : Int) - (bitLength b b : Int)
  if 0 ≤ l then (if b * 2 ^ l.toNat ≤ a then l else l - 1)
  else (if b ≤ a * 2 ^ (-l).toNat then l else l - 1)

/-- The double nearest to the decimal `d` (IEEE 754 binary64, round to nearest,
ties to even): a mantissa of at most 53 bits times a power of two, the exponent
not below -1074, and an infinity from `2 ^ 1024` on. The result is given by its
exact decimal expansion. -/
def toDouble (d : Dec) : JsNum :=
  let a := d.mant.natAbs
  if a = 0 then .fin ⟨0, 0⟩
  else
    let b := 10 ^ d.scale
    let e0 := floorLog2Ratio a b - 52
    let e : Int := if e0 < -1074 then -1074 else e0
    let m : Nat :=
      if 0 ≤ e then roundHalfEven a (b * 2 ^ e.toNat)
      else roundHalfEven (a * 2 ^ (-e).toNat) b
    if 0 ≤ e then
      if 1024 < bitLength m m + e.toNat then (if d.mant < 0 then .negInf else .posInf)
      else .fin ⟨d.mant.sign * (m * 2 ^ e.toNat : Nat), 0⟩
    else .fin (stripZeros (d.mant.sign * (m * 5 ^ (-e).toNat : Nat)) (-e).toNat)

/-- A number as the double it is: a finite number is rounded. -/
def JsNum.round : JsNum → JsNum
  | .fin d => toDouble d
  | n => n

/-- ToBoolean of a double: zero and NaN are falsy. -/
def JsNum.nonzero : JsNum → Bool
  | .nan => false
  | .fin d => decide (d.mant ≠ 0)
  | _ => true

/-- A primitive JavaScript value, the element type of arrays. -/
inductive JsPrim where
  | undefined
  | null
  | bool (b : Bool)
  | num (n : JsNum)
  | str (s : String)
  deriving DecidableEq, Repr

/-- A JavaScript value: a primitive or an array of primitives. -/
inductive JsVal where
  | undefined
  | null
  | bool (b : Bool)
  | num (n : JsNum)
  | str (s : String)
  | arr (xs : List JsPrim)
  deriving DecidableEq, Repr

/-- A primitive seen as a value. -/
def JsPrim.toVal : JsPrim → JsVal
  | .undefined => .undefined
  | .null => .null
  | .bool b => .bool b
  | .num n => .num n
  | .str s => .str s

/-- ToBoolean: `undefined`, `null`, `false`, `0`, `NaN` and `''` are falsy. -/
def truthy : JsVal → Bool
  | .undefined => false
  | .null => false
  | .bool b => b
  | .num n => n.round.nonzero
  | .str s => decide (s ≠ "")
  | .arr _ => true

/-- The operator `a || b`. -/
def jsOr (a b : JsVal) : JsVal := if truthy a then a else b

/-- The `length` of a string: its number of UTF-16 code units. -/
def jsLength (s : String) : Nat :=
  (s.toList.map (fun c => if c.val < 0x10000 then 1 else 2)).sum

/-- The property `value.length` of a value that is neither `undefined` nor
`null`: defined for strings and arrays, `undefined` (here `none`) otherwise. -/
def lengthOf : JsVal → Option Nat
  | .str s => some (jsLength s)
  | .arr xs => some xs.length
  | _ => none

/-- The test `value.length === 0`. -/
def lengthIsZero (v : JsVal) : Bool := lengthOf v == some 0

/-- A bound given as a prop (`min`, `max`): absent, or a number written as a
decimal, which stands for the double nearest to it. -/
abbrev Bound := Option Dec

/-- A bound as the number it is compared as: an absent bound compares like NaN. -/
def Bound.toNum : Bound → JsNum
  | none => .nan
  | some d => toDouble d

/-- ToBoolean of a bound: absent and zero are falsy. -/
def Bound.truthy (b : Bound) : Bool := b.toNum.nonzero

/-- A bound as the value passed on to `format`. -/
def Bound.toVal : Bound → JsVal
  | none => .undefined
  | some d => .num (toDouble d)

/-! ## parseFloat -/

/-- The characters skipped by `parseFloat` before the numeral (white space and
line terminators). -/
def isJsSpace (c : Char) : Bool :=
  c.val ∈ [0x09, 0x0A, 0x0B, 0x0C, 0x0D, 0x20, 0xA0, 0x1680, 0x2028, 0x2029, 0x202F, 0x205F,
    0x3000, 0xFEFF] || (0x2000 ≤ c.val && c.val ≤ 0x200A)

/-- Drops the leading white space. -/
def skipSpaces : List Char → List Char
  | [] => []
  | c :: cs => if isJsSpace c then skipSpaces cs else c :: cs

/-- Splits off the longest prefix of decimal digits. -/
def takeDigits : List Char → List Char × List Char
  | [] => ([], [])
  | c :: cs =>
    if c.isDigit then (c :: (takeDigits cs).1, (takeDigits cs).2) else ([], c :: cs)

/-- The number written by a list of decimal digits. -/
def digitsVal (ds : List Char) : Nat :=
  ds.foldl (fun acc c => 10 * acc + (c.toNat - 48)) 0

/-- An optional sign: the factor and the rest of the input. -/
def takeSign : List Char → Int × List Char
  | '-' :: cs => (-1, cs)
  | '+' :: cs => (1, cs)
  | cs => (1, cs)

/-- The exponent part `e[+-]digits` when one is present, else exponent 0. -/
def takeExponent : List Char → Int
  | c :: cs =>
    if c = 'e' ∨ c = 'E' then
      let sg := takeSign cs
      let ds := (takeDigits sg.2).1
      if ds.isEmpty then 0 else sg.1 * (digitsVal ds : Int)
    else 0
  | [] => 0

/-- The value `sign * digits * 10 ^ shift` as a decimal fraction. -/
def mkDec (sign : Int) (digits : Nat) (shift : Int) : Dec :=
  if 0 ≤ shift then ⟨sign * digits * 10 ^ shift.toNat, 0⟩
  else ⟨sign * digits, (-shift).toNat⟩

/-- The function `parseFloat` on a string: leading white space is skipped, the
longest prefix that is a decimal literal (or `Infinity`) is read and rounded to
the nearest double, and NaN is the result when there is none. -/
def parseFloatChars (cs : List Char) : JsNum :=
  let sg := takeSign (skipSpaces cs)
  if "Infinity".toList.isPrefixOf sg.2 then
    (if sg.1 < 0 then .negInf else .posInf)
  else
    let ip := takeDigits sg.2
    let fp : List Char × List Char :=
      match ip.2 with
      | '.' :: rest => takeDigits rest
      | rest => ([], rest)
    if ip.1.isEmpty && fp.1.isEmpty then .nan
    else toDouble (mkDec sg.1 (digitsVal (ip.1 ++ fp.1)) (takeExponent fp.2 - fp.1.length))

/-- The function `parseFloat` on a primitive (after ToString). Inside an array
`undefined` and `null` are written as the empty string. -/
def parseFloatPrim : JsPrim → JsNum
  | .str s => parseFloatChars s.toList
  | .num n => n.round
  | _ => .nan

/-- The function `parseFloat(value)`: the argument is converted to a string
first, so a number parses to itself, a boolean to NaN and an array to what its
first element parses to (the comma after it ends the numeral). -/
def parseFloat : JsVal → JsNum
  | .str s => parseFloatChars s.toList
  | .num n => n.round
  | .arr (x :: _) => parseFloatPrim x
  | _ => .nan

/-! ## The collaborators that are outside the source files -/

/-- The helpers the component imports from modules outside the source files.
`lang key` is the template `getLang(key, null)` finds (`none`: the fallback
`null`), `format` is `format(text, value)`, `isEmpty` is `isEmpty(value)`,
`toArray` is `toArray(value, sep)`, and `regs name` is the matcher `Regs[name]`
with its `test` method (`none`: no matcher of that name). -/
structure Env where
  lang : String → Option String
  format : String → JsVal → String
  isEmpty : JsVal → Bool
  toArray : JsVal → JsVal → List JsPrim
  regs : String → Option (JsVal → Bool)

/-- The call `getLang(key, null)`. -/
def getLang (env : Env) (key : String) : JsVal :=
  match env.lang key with
  | some t => .str t
  | none => .null

/-! ## Child markup -/

/-- The identity of a component class or the name of a tag (`child.type`). -/
abbrev Component := String

mutual
/-- A child of the declaration: a React element (its type, key, ref, its other
props and its `props.children`), a text, or `null` (what a conditional that
renders nothing leaves in the markup). -/
inductive Node where
  | element (type : Component) (key : Option Nat) (ref : Option String)
      (attrs : List (String × JsVal)) (children : Kids)
  | text (s : String)
  | null
/-- The value of `props.children`: absent, one child, or an array of children. -/
inductive Kids where
  | absent
  | single (n : Node)
  | many (ns : NodeList)
/-- An array of children. -/
inductive NodeList where
  | nil
  | cons (n : Node) (rest : NodeList)
end

/-- The elements of an array of children, in order. -/
def NodeList.toList : NodeList → List Node
  | .nil => []
  | .cons n rest => n :: rest.toList

/-- The array holding the given children. -/
def NodeList.ofList : List Node → NodeList
  | [] => .nil
  | n :: ns => .cons n (NodeList.ofList ns)

/-- ToBoolean of `props.children`: absent, `null` and the empty text are falsy. -/
def Kids.truthy : Kids → Bool
  | .absent => false
  | .single (.text s) => decide (s ≠ "")
  | .single .null => false
  | _ => true

/-! ## Registry, props, state -/

/-- The identity of a render function `(props) -> Element`. -/
abbrev RenderFn := String

/-- An entry of `controls`: `{ render, component, valueType }`. -/
structure Descriptor where
  render : RenderFn
  component : Component
  valueType : String
  deriving DecidableEq, Repr

/-- The module-level table `controls`, a plain object: its own entries, from
type name to descriptor, and its prototype, which is `Object.prototype`
(`none`) until a descriptor is assigned under the name `__proto__`. -/
structure Registry where
  own : String → Option Descriptor
  proto : Option Descriptor

/-- The table `controls = {}` at load time. -/
def Registry.empty : Registry := ⟨fun _ => none, none⟩

/-- The names of the methods every plain object inherits from `Object.prototype`. -/
def objectPrototypeNames : List String :=
  ["constructor", "toString", "toLocaleString", "valueOf", "hasOwnProperty", "isPrototypeOf",
    "propertyIsEnumerable", "__defineGetter__", "__defineSetter__", "__lookupGetter__",
    "__lookupSetter__"]

/-- What a read `controls[name]` yields: `undefined`, a descriptor (an own
entry, or the prototype when it is a descriptor and the name is `__proto__`),
`Object.prototype` itself, a method inherited from it, or a field of the
descriptor that is the prototype. -/
inductive Resolved where
  | undefined
  | descriptor (d : Descriptor)
  | objectPrototype
  | inherited (name : String)
  | render (r : RenderFn)
  | component (c : Component)
  | valueType (v : String)
  deriving DecidableEq, Repr

/-- The read `controls[name]`. -/
def Registry.get (controls : Registry) (name : String) : Resolved :=
  if name = "__proto__" then
    match controls.proto with
    | some d => .descriptor d
    | none => .objectPrototype
  else
    match controls.own name with
    | some d => .descriptor d
    | none =>
      match controls.proto with
      | some d =>
        if name = "render" then .render d.render
        else if name = "component" then .component d.component
        else if name = "valueType" then .valueType d.valueType
        else if name ∈ objectPrototypeNames then .inherited name else .undefined
      | none => if name ∈ objectPrototypeNames then .inherited name else .undefined

/-- ToBoolean of what a read yields: `undefined` and an empty string are falsy. -/
def Resolved.truthy : Resolved → Bool
  | .undefined => false
  | .valueType v => decide (v ≠ "")
  | _ => true

/-- The text a template literal makes of a `valueType`: an `undefined` one reads
`undefined`. -/
def valueTypeText : Option String → String
  | some v => v
  | none => "undefined"

/-- The declared props of a FormControl that the component reads.
`onValidate` is the result the supplied predicate returns when called (`none`:
no predicate supplied); `onChange` tells whether a handler is supplied. -/
structure Props where
  children : Kids := .absent
  className : Option String := none
  data : JsVal := .undefined
  hintType : Option String := none
  id : JsVal := .str "uid"
  label : JsVal := .undefined
  layout : String := "inline"
  name : JsVal := .undefined
  onChange : Bool := false
  placeholder : JsVal := .undefined
  responsive : String := "md"
  style : JsVal := .undefined
  type : String := "text"
  value : JsVal := .undefined
  width : Option Nat := none
  required : JsVal := .undefined
  readOnly : JsVal := .undefined
  min : Bound := none
  max : Bound := none
  sep : JsVal := .undefined
  tip : JsVal := .undefined
  onValidate : Option JsVal := none

/-- The component state (the class property `state` and the `errorText` that
`validatePass` and `validateFail` add). -/
structure State where
  focused : Bool
  hasError : Bool
  hasValue : JsVal
  value : JsVal
  valueType : Option String
  data : JsVal
  hintText : JsVal
  errorText : JsVal
  deriving DecidableEq, Repr

/-- The mounted underlying control `this.refs.control`: the value its
`getValue(null)` returns, and its `setValue` when it has one (the value it
holds after the call). -/
structure Control where
  value : JsVal
  setValue : Option (JsVal → JsVal) := none

/-- The static method `FormControl.register` with one type name or a list of them. -/
inductive TypeNames where
  | one (t : String)
  | many (ts : List String)

/-- The array `types` after the `typeof types === 'string'` wrap. -/
def TypeNames.toList : TypeNames → List String
  | .one t => [t]
  | .many ts => ts

/-- The assignment `controls[type] = d`: under the name `__proto__` the setter
inherited from `Object.prototype` makes `d` the prototype; under any other name
an own entry is written. -/
def Registry.set (controls : Registry) (type : String) (d : Descriptor) : Registry :=
  if type = "__proto__" then { controls with proto := some d }
  else { controls with own := fun k => if k = type then some d else controls.own k }

/-- The static method `FormControl.register(types, render, component, valueType = 'string')`:
every listed name is assigned the descriptor, left to right. An omitted
`valueType` is `none`. -/
def register (controls : Registry) (types : TypeNames) (render : RenderFn)
    (component : Component) (valueType : Option String) : Registry :=
  types.toList.foldl
    (fun acc type => acc.set type ⟨render, component, valueType.getD "string"⟩) controls

/-- The read `control.valueType` of what `controls[name]` yielded: a TypeError
on `undefined`, the field of a descriptor, and `undefined` (here `none`) on
`Object.prototype`, a function or a string. -/
def Resolved.valueTypeField : Resolved → Except String (Option String)
  | .undefined => .error "TypeError: Cannot read property valueType of undefined"
  | .descriptor d => .ok (some d.valueType)
  | _ => .ok none

/-- The class property `state = ...`, evaluated at construction. Reading
`controls[this.props.type].valueType` throws a TypeError when the read
`controls[this.props.type]` yields `undefined`. -/
def initialState (controls : Registry) (props : Props) : Except String State :=
  match (controls.get props.type).valueTypeField with
  | .error e => .error e
  | .ok valueType =>
    .ok {
      focused := false
      hasError := false
      hasValue := props.value
      value := props.value
      valueType := valueType
      data := props.data
      hintText := .str ""
      errorText := .undefined }

/-! ## Hints -/

/-- The function `getTip(key, value)`. -/
def getTip (env : Env) (key : String) (value : JsVal) : JsVal :=
  match getLang env ("validation.tips." ++ key) with
  | .str t => if truthy (.str t) then .str (env.format t value) else .str t
  | text => text

/-- The function `getHint(hints, key, value)`: the array `hints` after the call.
An omitted `value` is `undefined`. -/
def getHint (env : Env) (hints : List String) (key : String) (value : JsVal) : List String :=
  match getLang env ("validation.hints." ++ key) with
  | .str t => if truthy (.str t) then hints ++ [env.format t value] else hints
  | _ => hints

/-- The method `setHint(props)` of a component whose current props are
`thisProps` and whose state is `st`. -/
def setHint (env : Env) (thisProps : Props) (st : State) (props : Props) : State :=
  if truthy props.tip then
    { st with hintText := props.tip }
  else
    let hints : List String := []
    let hints := if truthy props.required then getHint env hints "required" .undefined else hints
    let hints := getHint env hints thisProps.type .undefined
    let hints :=
      if props.min.truthy then
        getHint env hints ("min." ++ valueTypeText st.valueType) props.min.toVal
      else hints
    let hints :=
      if props.max.truthy then
        getHint env hints ("max." ++ valueTypeText st.valueType) props.max.toVal
      else hints
    { st with hintText := .str (", ".intercalate hints) }

/-! ## Validation -/

/-- The method `validatePass()`. -/
def validatePass (st : State) : State :=
  { st with hasError := false, errorText := .str "" }

/-- The method `validateFail(type, value)`. -/
def validateFail (env : Env) (props : Props) (st : State) (type : String) (value : JsVal) :
    State :=
  let text := jsOr (getTip env type value) props.tip
  { st with hasError := true, errorText := text }

/-- The way a validation pass ends: the early `return true` of a read-only
field, a `validateFail(kind, arg)` followed by `return false`, or a
`validatePass()` followed by `return true`. -/
inductive Verdict where
  | readOnly
  | fail (kind : String) (arg : JsVal)
  | pass
  deriving DecidableEq, Repr

/-- The metric `len` of lines 133-146, chosen by `this.state.valueType`. A
`length` that is `undefined` compares like NaN. -/
def metric (env : Env) (props : Props) (st : State) (value : JsVal) : JsNum :=
  if st.valueType = some "array" then JsNum.ofNat (env.toArray value props.sep).length
  else if st.valueType = some "number" then parseFloat value
  else match lengthOf value with
    | some n => JsNum.ofNat n
    | none => .nan

/-- The branch `validate` takes on `value` (the value after the
`value || this.getValue(null)` of line 94), lines 106-159. -/
def verdict (env : Env) (props : Props) (st : State) (value : JsVal) : Verdict :=
  if truthy props.readOnly then .readOnly
  else if truthy props.required
      && (value == .undefined || value == .null || lengthIsZero value) then
    .fail "required" value
  else if props.onValidate.isSome && !(truthy (props.onValidate.getD .undefined)) then
    .fail "" value
  else if value == .undefined || value == .null || value == .str "" then .pass
  else if (match env.regs props.type with
      | some reg => !(reg value)
      | none => false) then
    .fail props.type value
  else
    let len := metric env props st value
    if props.max.truthy && JsNum.lt props.max.toNum len then
      .fail ("max." ++ valueTypeText st.valueType) props.max.toVal
    else if props.min.truthy && JsNum.lt len props.min.toNum then
      .fail ("min." ++ valueTypeText st.valueType) props.min.toVal
    else .pass

/-- The boolean a verdict returns. -/
def Verdict.result : Verdict → Bool
  | .fail _ _ => false
  | _ => true

/-- The state change a verdict makes. -/
def Verdict.apply (env : Env) (props : Props) (st : State) : Verdict → State
  | .readOnly => st
  | .fail kind arg => validateFail env props st kind arg
  | .pass => validatePass st

/-- The value validated: `value = value || this.getValue(null)`. -/
def validatedValue (ctl : Control) (value : JsVal) : JsVal :=
  jsOr value ctl.value

/-- The method `validate(value)`: the boolean returned and the state after the
call. An absent argument is `undefined`. -/
def validate (env : Env) (props : Props) (ctl : Control) (st : State) (value : JsVal) :
    Bool × State :=
  let value := validatedValue ctl value
  let st := { st with hasValue := .bool (!(env.isEmpty value)) }
  let v := verdict env props st value
  (v.result, v.apply env props st)

/-! ## Event handlers -/

/-- The method `handleChange(value)`: the state after the call. The host's
`onChange` receives `value` and leaves the component state alone. -/
def handleChange (env : Env) (props : Props) (ctl : Control) (st : State) (_value : JsVal) :
    State :=
  (validate env props ctl st ctl.value).2

/-- The underlying control after `this.refs.control.setValue(value)`, when it
has a `setValue`. -/
def Control.afterSet (ctl : Control) (value : JsVal) : Control :=
  match ctl.setValue with
  | some f => { ctl with value := f value }
  | none => ctl

/-- The method `setValue(value)`: the underlying control and the state after the call. -/
def setValue (env : Env) (props : Props) (ctl : Control) (st : State) (value : JsVal) :
    Control × State :=
  let ctl := ctl.afterSet value
  (ctl, (validate env props ctl st value).2)

/-- The method `handleFocus(focused)`. -/
def handleFocus (st : State) (focused : Bool) : State :=
  { st with focused := focused }

/-! ## Rendering -/

mutual
/-- The body of the `children.map` callback in `getChildren` for the child at
index `i`: `React.addons.cloneWithProps(child, props)` with `props.key = i`,
`props.ref = 'control'` when `child.type === component`, and `props.children`
the transformed children when `child.props.children` is an object (an element
or an array; `typeof null` is `'object'` too). The clone has the type and the
other props of the child and the key and ref of `props`; cloning a text throws
(it has no `props`), and reading `child.type` of a `null` child throws. -/
def cloneChild (component : Option Component) (i : Nat) : Node → Except String Node
  | .text _ => .error "TypeError: Cannot read property hasOwnProperty of undefined"
  | .null => .error "TypeError: Cannot read property type of null"
  | .element type _ _ attrs children =>
    let ref := if some type = component then some "control" else none
    match children with
    | .absent => .ok (.element type (some i) ref attrs .absent)
    | .single (.text s) => .ok (.element type (some i) ref attrs (.single (.text s)))
    | .single n =>
      match cloneChild component 0 n with
      | .ok n2 => .ok (.element type (some i) ref attrs (.many (.cons n2 .nil)))
      | .error e => .error e
    | .many ns =>
      match getChildrenFrom component 0 ns with
      | .ok ns2 => .ok (.element type (some i) ref attrs (.many ns2))
      | .error e => .error e
/-- The loop of `getChildren` over an array of children, from index `i` on. -/
def getChildrenFrom (component : Option Component) (i : Nat) :
    NodeList → Except String NodeList
  | .nil => .ok .nil
  | .cons n rest =>
    match cloneChild component i n with
    | .ok n2 =>
      match getChildrenFrom component (i + 1) rest with
      | .ok rest2 => .ok (.cons n2 rest2)
      | .error e => .error e
    | .error e => .error e
end

/-- The method `getChildren(children, component)`, called on a truthy
`children`: a value that is not an array is wrapped in one first. The marker
`component` is `none` when `control.component` is `undefined`. -/
def getChildren (children : Kids) (component : Option Component) :
    Except String NodeList :=
  match children with
  | .many ns => getChildrenFrom component 0 ns
  | .single n => getChildrenFrom component 0 (.cons n .nil)
  | .absent => .error "TypeError: Cannot read property type of undefined"

/-- The props object handed to `control.render`: the declared props copied by
`copyProps`, with the entries `copyProps` sets and the `width` after the merge
with the override object. The three handlers are bound methods of the component. -/
structure ControlProps where
  declared : Props
  ref : String
  value : JsVal
  placeholder : JsVal
  data : JsVal
  width : Option Nat

/-- The method `copyProps()`. -/
def copyProps (props : Props) (st : State) : ControlProps :=
  { declared := props
    ref := "control"
    value := st.value
    placeholder :=
      if props.layout = "inline" then jsOr props.placeholder props.label else props.placeholder
    data := st.data
    width := props.width }

/-- What `getControl` returns: `null` after a console warning, the transformed
child markup, or the element `control.render(props)`. -/
inductive ControlOut where
  | null (warning : String)
  | children (ns : NodeList)
  | rendered (render : RenderFn) (props : ControlProps)

/-- The read `control.component` of a truthy `control`: the field of a
descriptor, `undefined` (here `none`) otherwise. -/
def Resolved.componentField : Resolved → Option Component
  | .descriptor d => some d.component
  | _ => none

/-- The read `control.render` of a truthy `control`: the field of a
descriptor, `undefined` (here `none`) otherwise. -/
def Resolved.renderField : Resolved → Option RenderFn
  | .descriptor d => some d.render
  | _ => none

/-- The method `getControl(props)`. The argument is the override object: `none`
when the call passes none, `some w` for the object with the one entry `width: w`,
which `deepmerge` writes over the copied props. Calling a `control.render` that
is `undefined` throws. -/
def getControl (controls : Registry) (props : Props) (st : State)
    (override : Option (Option Nat)) : Except String ControlOut :=
  let control := controls.get props.type
  if !control.truthy then .ok (.null (props.type ++ " was not registed."))
  else if props.children.truthy then
    match getChildren props.children control.componentField with
    | .ok ns => .ok (.children ns)
    | .error e => .error e
  else
    let copied := copyProps props st
    let merged :=
      match override with
      | some w => { copied with width := w }
      | none => copied
    match control.renderField with
    | some render => .ok (.rendered render merged)
    | none => .error "TypeError: control.render is not a function"

/-- The second child of the wrapper: the error span, the hint span, or the
falsy `hintText` itself, which renders nothing. -/
inductive Message where
  | errorSpan (text : JsVal)
  | hintSpan (text : JsVal)
  | nothing (value : JsVal)
  deriving DecidableEq, Repr

/-- The expression `errorText ? <span className="error"> : (hintText && <span className="hint">)`. -/
def message (st : State) : Message :=
  if truthy st.errorText then .errorSpan st.errorText
  else if truthy st.hintText then .hintSpan st.hintText
  else .nothing st.hintText

/-- The element a layout returns. -/
inductive View where
  | inline (style : JsVal) (className : String) (control : ControlOut) (message : Message)
  | stacked (style : JsVal) (className : String) (htmlFor : JsVal) (label : JsVal)
      (control : ControlOut) (message : Message)

/-- ToBoolean of the `width` prop. -/
def widthTruthy : Option Nat → Bool
  | some n => decide (n ≠ 0)
  | none => false

/-- The method `renderInline(className)`. -/
def renderInline (controls : Registry) (props : Props) (st : State) (className : String) :
    Except String View :=
  let className :=
    if widthTruthy props.width then
      className ++ " pure-u-1 pure-u-" ++ props.responsive ++ "-"
        ++ toString (props.width.getD 0) ++ "-24"
    else className
  match getControl controls props st (some (if widthTruthy props.width then some 24 else none)) with
  | .ok control => .ok (.inline props.style className control (message st))
  | .error e => .error e

/-- The method `renderStacked(className)`. -/
def renderStacked (controls : Registry) (props : Props) (st : State) (className : String) :
    Except String View :=
  match getControl controls props st none with
  | .ok control => .ok (.stacked props.style className props.id props.label control (message st))
  | .error e => .error e

/-- The call `classnames(a, 'pure-control-group', hint, obj)`: the truthy names joined by
a blank, the keys of the object entering when their value is true. -/
def classnames (className : Option String) (hint : String) (hasError focused : Bool) : String :=
  " ".intercalate
    ((match className with
      | some c => if c ≠ "" then [c] else []
      | none => [])
      ++ ["pure-control-group", hint]
      ++ (if hasError then ["has-error"] else [])
      ++ (if focused then ["focused"] else []))

/-- The method `render()`. -/
def render (controls : Registry) (props : Props) (st : State) : Except String View :=
  let hintType :=
    match props.hintType with
    | some h => if h ≠ "" then h else (if props.layout = "inline" then "pop" else "block")
    | none => if props.layout = "inline" then "pop" else "block"
  let className := classnames props.className ("hint-" ++ hintType) st.hasError st.focused
  if props.layout = "inline" then renderInline controls props st className
  else renderStacked controls props st className

/-- The second child of the wrapper in a rendered view. -/
def View.message : View → Message
  | .inline _ _ _ m => m
  | .stacked _ _ _ _ _ m => m

/-! ## Reachable states -/

/-- The states a component can be in, together with its current props: the
state it is constructed with, and the states after `setHint` (at mount with the
same props, on a props change with the next props, which then become current),
`validate`, `setValue`, `handleChange` and `handleFocus`. -/
inductive Reachable (env : Env) (controls : Registry) : Props → State → Prop where
  | init (props : Props) (st : State) :
      initialState controls props = .ok st → Reachable env controls props st
  | setHint (props next : Props) (st : State) :
      Reachable env controls props st →
      Reachable env controls next (setHint env props st next)
  | validate (props : Props) (st : State) (ctl : Control) (value : JsVal) :
      Reachable env controls props st →
      Reachable env controls props (validate env props ctl st value).2
  | setValue (props : Props) (st : State) (ctl : Control) (value : JsVal) :
      Reachable env controls props st →
      Reachable env controls props (setValue env props ctl st value).2
  | handleChange (props : Props) (st : State) (ctl : Control) (value : JsVal) :
      Reachable env controls props st →
      Reachable env controls props (handleChange env props ctl st value)
  | handleFocus (props : Props) (st : State) (focused : Bool) :
      Reachable env controls props st →
      Reachable env controls props (handleFocus st focused)

/-! ## Vocabulary of the specification -/

/-- An empty value: `undefined`, `null`, or of length zero (the test of line 111). -/
def emptyValue (v : JsVal) : Bool :=
  v == .undefined || v == .null || lengthIsZero v

/-- The localized hint for a key, as a list of zero or one hints: nothing when
the table has no template (or an empty one) under `validation.hints.<key>`. -/
def localizedHint (env : Env) (key : String) (value : JsVal) : List String :=
  getHint env [] key value

/-- The reference derivation of the hint text, following the words of the
specification, for declared props `p` and value type `valueType`: the explicit
tip when one is declared; otherwise the join of the required hint if `p` is
required, the hint keyed by the declared type of `p`, the min hint if `min` is
set and the max hint if `max` is set, a missing key contributing nothing. -/
def hintReference (env : Env) (p : Props) (valueType : String) : JsVal :=
  let entry (key : String) (value : JsVal) : List String :=
    match env.lang ("validation.hints." ++ key) with
    | some t => [env.format t value]
    | none => []
  if p.tip ≠ .undefined then p.tip
  else
    .str (", ".intercalate
      ((if truthy p.required then entry "required" .undefined else [])
        ++ entry p.type .undefined
        ++ (match p.min with
            | some d => entry ("min." ++ valueType) (.num (toDouble d))
            | none => [])
        ++ (match p.max with
            | some d => entry ("max." ++ valueType) (.num (toDouble d))
            | none => [])))

/-! ## A concrete environment for the examples -/

/-- Splits a list of characters at every occurrence of a non-empty separator. -/
def splitChars (sep : List Char) : Nat → List Char → List Char → List (List Char)
  | 0, _, cur => [cur.reverse]
  | _ + 1, [], cur => [cur.reverse]
  | fuel + 1, c :: cs, cur =>
    if sep.isPrefixOf (c :: cs) then
      cur.reverse :: splitChars sep fuel ((c :: cs).drop sep.length) []
    else splitChars sep fuel cs (c :: cur)

/-- Modelled from the spec: `toArray` of `../utils/strings`, which is outside the
source files. The elements of a delimited string split by the configured
separator; an array is its own elements and any other value is one element. -/
def specToArray (value sep : JsVal) : List JsPrim :=
  match value, sep with
  | .str s, .str p =>
    if p = "" then [.str s]
    else (splitChars p.toList (s.length + 1) s.toList []).map (fun cs => JsPrim.str (String.mk cs))
  | .arr xs, _ => xs
  | .undefined, _ => []
  | .null, _ => []
  | .bool b, _ => [.bool b]
  | .num n, _ => [.num n]
  | .str s, _ => [.str s]

/-- Modelled from the spec: `isEmpty` of `../utils/objects`, which is outside the
source files. Empty is `undefined`, `null` or zero-length. -/
def specIsEmpty (v : JsVal) : Bool := emptyValue v

/-- A localization table for the examples. -/
def demoLang (key : String) : Option String :=
  if key = "validation.hints.required" then some "Required"
  else if key = "validation.hints.email" then some "Email address"
  else if key = "validation.hints.min.string" then some "At least"
  else if key = "validation.hints.max.string" then some "At most"
  else if key = "validation.tips.required" then some "Cannot be empty"
  else if key = "validation.tips.max.number" then some "Must not exceed"
  else if key = "validation.tips.min.number" then some "Must not be below"
  else if key = "validation.tips.max.array" then some "Too many, at most"
  else if key = "validation.tips.min.array" then some "Too few, at least"
  else none

/-- A `format` for the examples: the template followed by the value. -/
def demoFormat (text : String) (value : JsVal) : String :=
  match value with
  | .str s => text ++ " " ++ s
  | .num (.fin d) => text ++ " " ++ toString d.mant
  | _ => text

/-- The matchers of the examples: `number` accepts the strings made of digits
with an optional sign and an optional fraction. -/
def demoRegs (name : String) : Option (JsVal → Bool) :=
  if name = "number" then
    some (fun v =>
      match v with
      | .str s =>
        let body := (takeSign s.toList).2
        let ip := takeDigits body
        !ip.1.isEmpty && (ip.2.isEmpty ||
          (ip.2.head? == some '.' && !(takeDigits ip.2.tail).1.isEmpty
            && (takeDigits ip.2.tail).2.isEmpty))
      | .num _ => true
      | _ => false)
  else none

/-- The environment of the examples. -/
def demoEnv : Env :=
  { lang := demoLang
    format := demoFormat
    isEmpty := specIsEmpty
    toArray := specToArray
    regs := demoRegs }

/-- The registry of the examples: `text` and `email` are string controls,
`number` a number control and `tags` an array control. -/
def demoControls : Registry :=
  register (register (register Registry.empty (.many ["text", "email"]) "renderInput" "Input" none)
    (.one "number") "renderInput" "Input" (some "number"))
    (.one "tags") "renderTags" "Tags" (some "array")

/-- A fresh state (not focused, no error, no value, no hint) of a control of
the given value type. -/
def demoState (valueType : String) : State :=
  { focused := false
    hasError := false
    hasValue := .undefined
    value := .undefined
    valueType := some valueType
    data := .undefined
    hintText := .str ""
    errorText := .undefined }

/-- The props of the example for the mutual exclusion of error and hint: a
required text field whose `onValidate` predicate returns false. -/
def demoRejecting : Props :=
  { required := .bool true, onValidate := some (.bool false) }

/-- The state of that field after it is constructed, mounted (`setHint`) and
validated on the value "abc". -/
def demoRejected : State :=
  (validate demoEnv demoRejecting ⟨.str "abc", none⟩
    (setHint demoEnv demoRejecting (demoState "string") demoRejecting) (.str "abc")).2

/-! ## Further vocabulary: input-driven states and the marked child tree -/

/-- The states a component is driven to from the state `st0` by change events
(`handleChange`, with any value reported by the control) and external sets
(`setValue`), under fixed props. -/
inductive InputReachable (env : Env) (props : Props) (st0 : State) : State → Prop where
  | start : InputReachable env props st0 st0
  | handleChange (st : State) (ctl : Control) (value : JsVal) :
      InputReachable env props st0 st →
      InputReachable env props st0 (handleChange env props ctl st value)
  | setValue (st : State) (ctl : Control) (value : JsVal) :
      InputReachable env props st0 st →
      InputReachable env props st0 (setValue env props ctl st value).2

mutual
/-- A child that is an element all of whose descendants are elements, a text
being allowed only as the sole child of an element. -/
def Node.isElementTree : Node → Bool
  | .element _ _ _ _ children => children.isElementTree
  | .text _ => false
  | .null => false
/-- Children made of element trees. -/
def Kids.isElementTree : Kids → Bool
  | .absent => true
  | .single (.text _) => true
  | .single n => n.isElementTree
  | .many ns => ns.isElementTree
/-- An array of element trees. -/
def NodeList.isElementTree : NodeList → Bool
  | .nil => true
  | .cons n rest => n.isElementTree && rest.isElementTree
end

mutual
/-- The reference transformation of a child at position `i`, following the
words of the specification: the child keeps its type and its props, carries
the key `i`, carries the ref `control` exactly when its type is the marker
`c`, and its element children are transformed in the same way. -/
def Node.marked (c : Component) (i : Nat) : Node → Node
  | .element type _ _ attrs children =>
    .element type (some i) (if type = c then some "control" else none) attrs (children.marked c)
  | .text s => .text s
  | .null => .null
/-- The reference transformation of `props.children`: a text that is the sole
child stays, one element child counts as a list of one, and an array is
transformed member by member. -/
def Kids.marked (c : Component) : Kids → Kids
  | .absent => .absent
  | .single (.text s) => .single (.text s)
  | .single n => .many (.cons (n.marked c 0) .nil)
  | .many ns => .many (ns.marked c 0)
/-- The reference transformation of an array of children whose first member
has position `i`: same length, same order. -/
def NodeList.marked (c : Component) (i : Nat) : NodeList → NodeList
  | .nil => .nil
  | .cons n rest => .cons (n.marked c i) (rest.marked c (i + 1))
end

/-- The number of members of an array of children. -/
def NodeList.length : NodeList → Nat
  | .nil => 0
  | .cons _ rest => rest.length + 1

/-- An environment whose table has the empty template under every key. -/
def demoEmptyTemplates : Env :=
  { demoEnv with lang := fun _ => some "" }

/-- A markup of the examples: a `div` holding a `label` and a `span`, the
`span` holding the `Input` control and a button. -/
def demoMarkup : Kids :=
  .single (.element "div" none none []
    (.many (.cons (.element "label" none none [] (.single (.text "Name")))
      (.cons (.element "span" none none []
        (.many (.cons (.element "Input" none none [("name", .str "n")] .absent)
          (.cons (.element "button" none (some "go") [] .absent) .nil))))
        .nil))))

/-! ## Lemmas on values and on the verdict -/

set_option maxRecDepth 100000

theorem jsLength_eq_zero (s : String) : jsLength s = 0 ↔ s = "" := by
  constructor
  · intro h
    cases s with
    | mk cs =>
      cases cs with
      | nil => rfl
      | cons c cs =>
        simp only [jsLength, String.toList, List.map_cons, List.sum_cons] at h
        split at h <;> omega
  · intro h
    subst h
    rfl

theorem lengthIsZero_str (s : String) : lengthIsZero (.str s) = decide (s = "") := by
  rw [Bool.eq_iff_iff]
  simp [lengthIsZero, lengthOf, jsLength_eq_zero]

theorem emptyValue_str_of_ne (s : String) (h : s ≠ "") :
    emptyValue (.str s) = false := by
  simp [emptyValue, lengthIsZero_str, h]

theorem emptyValue_validatedValue (ctl : Control) (v : JsVal)
    (hv : emptyValue v = true) (hc : emptyValue ctl.value = true) :
    emptyValue (validatedValue ctl v) = true := by
  unfold validatedValue jsOr
  split
  · exact hv
  · exact hc

theorem verdict_readOnly (env : Env) (props : Props) (st : State) (value : JsVal)
    (h : truthy props.readOnly = true) : verdict env props st value = .readOnly := by
  simp [verdict, h]

theorem verdict_ne_readOnly (env : Env) (props : Props) (st : State) (value : JsVal)
    (h : truthy props.readOnly = false) : verdict env props st value ≠ .readOnly := by
  unfold verdict
  rw [h]
  simp only [Bool.false_eq_true, if_false]
  repeat' split
  all_goals simp

theorem verdict_required (env : Env) (props : Props) (st : State) (value : JsVal)
    (hro : truthy props.readOnly = false) (hreq : truthy props.required = true)
    (he : emptyValue value = true) : verdict env props st value = .fail "required" value := by
  unfold emptyValue at he
  simp [verdict, hro, hreq, he]

theorem validate_eq (env : Env) (props : Props) (ctl : Control) (st : State) (value : JsVal) :
    validate env props ctl st value =
      ((verdict env props { st with hasValue := .bool (!(env.isEmpty (validatedValue ctl value))) }
          (validatedValue ctl value)).result,
        (verdict env props { st with hasValue := .bool (!(env.isEmpty (validatedValue ctl value))) }
          (validatedValue ctl value)).apply env props
          { st with hasValue := .bool (!(env.isEmpty (validatedValue ctl value))) }) := rfl

theorem onValidate_passes (props : Props) (hon : ∀ r, props.onValidate = some r → truthy r = true) :
    (props.onValidate.isSome && !(truthy (props.onValidate.getD .undefined))) = false := by
  cases hov : props.onValidate with
  | none => rfl
  | some r => simp [hon r hov]

/-- On a field that is not read-only, for a value that is not `undefined`,
`null` or the empty string and that passes the required, `onValidate` and
format checks, the verdict is decided by the bounds alone: `max.<valueType>`
when `max` is truthy and below the metric, else `min.<valueType>` when `min`
is truthy and above the metric, else a pass. -/
theorem verdict_of_checks_passed (env : Env) (props : Props) (st : State) (value : JsVal)
    (hro : truthy props.readOnly = false)
    (hreq : (truthy props.required && emptyValue value) = false)
    (hon : ∀ r, props.onValidate = some r → truthy r = true)
    (hne : value ≠ .undefined ∧ value ≠ .null ∧ value ≠ .str "")
    (hfmt : ∀ reg, env.regs props.type = some reg → reg value = true) :
    verdict env props st value =
      if props.max.truthy && JsNum.lt props.max.toNum (metric env props st value) then
        .fail ("max." ++ valueTypeText st.valueType) props.max.toVal
      else if props.min.truthy && JsNum.lt (metric env props st value) props.min.toNum then
        .fail ("min." ++ valueTypeText st.valueType) props.min.toVal
      else .pass := by
  have hreg : (match env.regs props.type with
      | some reg => !(reg value)
      | none => false) = false := by
    cases hr : env.regs props.type with
    | none => rfl
    | some reg => simp [hfmt reg hr]
  unfold emptyValue at hreq
  unfold verdict
  rw [onValidate_passes props hon, hreg, hreq]
  simp [hro, hne.1, hne.2.1, hne.2.2]

/-- A bound that is truthy is a bound other than zero; under the hypotheses of
`verdict_of_checks_passed`, a truthy `max` that the metric exceeds gives
`max.<valueType>`; a truthy `min` that the metric is below, no truthy `max`
being exceeded, gives `min.<valueType>`; and a metric that exceeds no truthy
`max` and is below no truthy `min` passes. -/
theorem verdict_bounds_nonzero (env : Env) (props : Props) (st : State) (value : JsVal)
    (hro : truthy props.readOnly = false)
    (hreq : (truthy props.required && emptyValue value) = false)
    (hon : ∀ r, props.onValidate = some r → truthy r = true)
    (hne : value ≠ .undefined ∧ value ≠ .null ∧ value ≠ .str "")
    (hfmt : ∀ reg, env.regs props.type = some reg → reg value = true) :
    (props.max.truthy = true →
      JsNum.lt props.max.toNum (metric env props st value) = true →
      verdict env props st value
        = .fail ("max." ++ valueTypeText st.valueType) props.max.toVal) ∧
    (props.min.truthy = true →
      JsNum.lt (metric env props st value) props.min.toNum = true →
      (props.max.truthy && JsNum.lt props.max.toNum (metric env props st value)) = false →
      verdict env props st value
        = .fail ("min." ++ valueTypeText st.valueType) props.min.toVal) ∧
    ((props.max.truthy && JsNum.lt props.max.toNum (metric env props st value)) = false →
      (props.min.truthy && JsNum.lt (metric env props st value) props.min.toNum) = false →
      verdict env props st value = .pass) := by
  rw [verdict_of_checks_passed env props st value hro hreq hon hne hfmt]
  refine ⟨?_, ?_, ?_⟩
  · intro hm hgt
    simp [hm, hgt]
  · intro hm hlt hmax
    rw [hmax]
    simp [hm, hlt]
  · intro h1 h2
    rw [h1, h2]
    simp

/-- A non-empty string is none of `undefined`, `null` and the empty string, and
passes the required check. -/
theorem str_checks (props : Props) (s : String) (hne : s ≠ "") :
    (truthy props.required && emptyValue (.str s)) = false ∧
    (JsVal.str s ≠ .undefined ∧ JsVal.str s ≠ .null ∧ JsVal.str s ≠ .str "") := by
  refine ⟨by simp [emptyValue_str_of_ne s hne], by simp, by simp, ?_⟩
  intro h
  exact hne (JsVal.str.inj h)

/-! ## Lemmas on the registry -/

theorem get_set_same (controls : Registry) (t : String) (d : Descriptor) :
    (controls.set t d).get t = .descriptor d := by
  by_cases h : t = "__proto__" <;> simp [Registry.set, Registry.get, h]

theorem get_set_of_get (controls : Registry) (a t : String) (d : Descriptor)
    (h : controls.get t = .descriptor d) : (controls.set a d).get t = .descriptor d := by
  by_cases hta : t = a
  · subst hta
    exact get_set_same controls t d
  · by_cases ha : a = "__proto__"
    · subst ha
      have ht : t ≠ "__proto__" := hta
      simp only [Registry.get, ht, if_false] at h
      simp only [Registry.set, Registry.get, ht, if_true, if_false]
      cases ho : controls.own t with
      | some d2 => simpa [ho] using h
      | none =>
        rw [ho] at h
        cases hp : controls.proto with
        | none =>
          rw [hp] at h
          simp only at h
          split at h <;> cases h
        | some d3 =>
          rw [hp] at h
          simp only at h
          repeat' split at h
          all_goals cases h
    · simp only [Registry.set, ha, if_false]
      simpa [Registry.get, hta] using h

theorem get_set_of_ne (controls : Registry) (a t : String) (d : Descriptor)
    (hta : t ≠ a) (ha : a ≠ "__proto__") : (controls.set a d).get t = controls.get t := by
  simp [Registry.set, Registry.get, ha, hta]

theorem foldl_set_of_get (d : Descriptor) (ts : List String) (controls : Registry) (t : String)
    (h : controls.get t = .descriptor d) :
    (ts.foldl (fun acc type => Registry.set acc type d) controls).get t = .descriptor d := by
  induction ts generalizing controls with
  | nil => exact h
  | cons a ts ih => exact ih _ (get_set_of_get controls a t d h)

theorem foldl_set_of_mem (d : Descriptor) (ts : List String) (controls : Registry) (t : String)
    (h : t ∈ ts) :
    (ts.foldl (fun acc type => Registry.set acc type d) controls).get t = .descriptor d := by
  induction ts generalizing controls with
  | nil => cases h
  | cons a ts ih =>
    rcases List.mem_cons.mp h with h1 | h1
    · subst h1
      exact foldl_set_of_get d ts _ t (get_set_same controls t d)
    · exact ih _ h1

theorem foldl_set_of_not_mem (d : Descriptor) (ts : List String) (controls : Registry)
    (t : String) (h : t ∉ ts) (hp : "__proto__" ∉ ts) :
    (ts.foldl (fun acc type => Registry.set acc type d) controls).get t = controls.get t := by
  induction ts generalizing controls with
  | nil => rfl
  | cons a ts ih =>
    have h1 : t ≠ a := fun e => h (e ▸ List.mem_cons_self _ _)
    have h2 : t ∉ ts := fun e => h (List.mem_cons_of_mem _ e)
    have h3 : a ≠ "__proto__" := fun e => hp (e ▸ List.mem_cons_self _ _)
    have h4 : "__proto__" ∉ ts := fun e => hp (List.mem_cons_of_mem _ e)
    rw [List.foldl_cons, ih _ h2 h4]
    exact get_set_of_ne controls a t d h1 h3

/-! ## C1 -/

/-- C1, as stated, fails: a field that is required and read-only passes on an
empty value (the argument and the control both `undefined`): `validate` returns
true and `hasError` stays false. -/
theorem C1_counterexample :
    truthy (JsVal.bool true) = true ∧ emptyValue .undefined = true ∧
    (validate demoEnv { required := .bool true, readOnly := .bool true } ⟨.undefined, none⟩
      (demoState "string") .undefined).1 = true ∧
    (validate demoEnv { required := .bool true, readOnly := .bool true } ⟨.undefined, none⟩
      (demoState "string") .undefined).2.hasError = false := by
  decide

/-- C1, amended: for every field that is required and not read-only, and every
empty value (the argument and the value the control reports both `undefined`,
`null` or of length zero), `validate` returns false and leaves `hasError = true`
and `errorText` resolved for the fail kind `required`: the formatted template
`validation.tips.required`, else the declared tip. -/
theorem C1_validate_required_empty (env : Env) (props : Props) (ctl : Control) (st : State)
    (v : JsVal)
    (hreq : truthy props.required = true) (hro : truthy props.readOnly = false)
    (hv : emptyValue v = true) (hc : emptyValue ctl.value = true) :
    (validate env props ctl st v).1 = false ∧
    (validate env props ctl st v).2.hasError = true ∧
    (validate env props ctl st v).2.errorText =
      jsOr (getTip env "required" (validatedValue ctl v)) props.tip := by
  have he := emptyValue_validatedValue ctl v hv hc
  rw [validate_eq, verdict_required env props _ _ hro hreq he]
  simp [Verdict.result, Verdict.apply, validateFail]

/-- C1, amended, at a required text field holding the empty string while the
control reports `null`. -/
theorem C1_validate_required_empty_witness :
    (validate demoEnv { required := .bool true } ⟨.null, none⟩ (demoState "string") (.str "")).1
      = false ∧
    (validate demoEnv { required := .bool true } ⟨.null, none⟩ (demoState "string")
      (.str "")).2.hasError = true ∧
    (validate demoEnv { required := .bool true } ⟨.null, none⟩ (demoState "string")
      (.str "")).2.errorText = .str "Cannot be empty" :=
  C1_validate_required_empty demoEnv { required := .bool true } ⟨.null, none⟩ (demoState "string")
    (.str "") (by decide) (by decide) (by decide) (by decide)

/-! ## C2 -/

/-- C2: for every field with a truthy `readOnly` and every value passed or
reported by the control, whatever the other props are, `validate` returns true. -/
theorem C2_validate_readOnly (env : Env) (props : Props) (ctl : Control) (st : State)
    (v : JsVal) (h : truthy props.readOnly = true) :
    (validate env props ctl st v).1 = true := by
  rw [validate_eq, verdict_readOnly env props _ _ h]
  rfl

/-- C2 at a read-only field that is also required, empty, above its max and
with a failing `onValidate`. -/
theorem C2_validate_readOnly_witness :
    (validate demoEnv
      { readOnly := .bool true, required := .bool true, max := some ⟨1, 0⟩,
        onValidate := some (.bool false) }
      ⟨.str "", none⟩ (demoState "string") .undefined).1 = true ∧
    (validate demoEnv
      { readOnly := .bool true, required := .bool true, max := some ⟨1, 0⟩,
        onValidate := some (.bool false) }
      ⟨.str "abc", none⟩ (demoState "string") (.str "abc")).1 = true :=
  ⟨C2_validate_readOnly _ _ _ _ _ (by decide), C2_validate_readOnly _ _ _ _ _ (by decide)⟩

/-! ## C3 -/

/-- C3, as stated, fails in two places. A number field holding "15" with
`max = 10` whose `onValidate` returns false fails with the unkeyed kind, not
with `max.number`; and with `max = 0` the same value passes although it
exceeds the bound. -/
theorem C3_counterexample :
    (verdict demoEnv { type := "number", max := some ⟨10, 0⟩, onValidate := some (.bool false) }
        (demoState "number") (.str "15") = .fail "" (.str "15") ∧
      (validate demoEnv { type := "number", max := some ⟨10, 0⟩, onValidate := some (.bool false) }
        ⟨.undefined, none⟩ (demoState "number") (.str "15")).2.errorText = .undefined ∧
      getTip demoEnv "max.number" (.num (.fin ⟨10, 0⟩)) = .str "Must not exceed 10") ∧
    (parseFloat (.str "15") = .fin ⟨15, 0⟩ ∧ Dec.lt ⟨0, 0⟩ ⟨15, 0⟩ = true ∧
      (validate demoEnv { type := "number", max := some ⟨0, 0⟩ } ⟨.undefined, none⟩
        (demoState "number") (.str "15")).1 = true) := by
  decide

/-- C3, amended: on a field that is not read-only, whose value type is
`number` and whose `onValidate` is absent or returns a truthy value, for every
non-empty string value that passes the format check, the metric compared with
`max` and `min` is the double `parseFloat` reads from the string and not its
length: if `max` is set to a number other than zero and the parsed value
exceeds it, `validate` returns false with the fail kind `max.number`; and if
`min` is set to a number other than zero and the parsed value is below it,
exceeding no such `max`, `validate` returns false with the fail kind
`min.number`. -/
theorem C3_validate_number_metric (env : Env) (props : Props) (ctl : Control) (st : State)
    (v : JsVal) (s : String)
    (hro : truthy props.readOnly = false)
    (hvt : st.valueType = some "number")
    (hval : validatedValue ctl v = .str s) (hne : s ≠ "")
    (hon : ∀ r, props.onValidate = some r → truthy r = true)
    (hfmt : ∀ reg, env.regs props.type = some reg → reg (.str s) = true) :
    metric env props st (.str s) = parseFloat (.str s) ∧
    (props.max.truthy = true →
      JsNum.lt props.max.toNum (parseFloat (.str s)) = true →
      verdict env props st (.str s) = .fail "max.number" props.max.toVal ∧
      (validate env props ctl st v).1 = false ∧
      (validate env props ctl st v).2.hasError = true ∧
      (validate env props ctl st v).2.errorText =
        jsOr (getTip env "max.number" props.max.toVal) props.tip) ∧
    (props.min.truthy = true →
      JsNum.lt (parseFloat (.str s)) props.min.toNum = true →
      (props.max.truthy && JsNum.lt props.max.toNum (parseFloat (.str s))) = false →
      verdict env props st (.str s) = .fail "min.number" props.min.toVal ∧
      (validate env props ctl st v).1 = false ∧
      (validate env props ctl st v).2.hasError = true ∧
      (validate env props ctl st v).2.errorText =
        jsOr (getTip env "min.number" props.min.toVal) props.tip) := by
  have hmet : ∀ st2 : State, st2.valueType = some "number" →
      metric env props st2 (.str s) = parseFloat (.str s) := by
    intro st2 h2
    simp [metric, h2]
  have hb : ∀ st2 : State, st2.valueType = some "number" →
      (props.max.truthy = true →
        JsNum.lt props.max.toNum (parseFloat (.str s)) = true →
        verdict env props st2 (.str s) = .fail "max.number" props.max.toVal) ∧
      (props.min.truthy = true →
        JsNum.lt (parseFloat (.str s)) props.min.toNum = true →
        (props.max.truthy && JsNum.lt props.max.toNum (parseFloat (.str s))) = false →
        verdict env props st2 (.str s) = .fail "min.number" props.min.toVal) := by
    intro st2 h2
    have h := verdict_bounds_nonzero env props st2 (.str s) hro (str_checks props s hne).1 hon
      (str_checks props s hne).2 hfmt
    rw [hmet st2 h2, h2] at h
    exact ⟨h.1, h.2.1⟩
  refine ⟨hmet st hvt, ?_, ?_⟩
  · intro hm hgt
    refine ⟨(hb st hvt).1 hm hgt, ?_⟩
    rw [validate_eq, hval,
      (hb { st with hasValue := .bool (!(env.isEmpty (JsVal.str s))) } hvt).1 hm hgt]
    simp [Verdict.result, Verdict.apply, validateFail]
  · intro hm hlt hmax
    refine ⟨(hb st hvt).2 hm hlt hmax, ?_⟩
    rw [validate_eq, hval,
      (hb { st with hasValue := .bool (!(env.isEmpty (JsVal.str s))) } hvt).2 hm hlt hmax]
    simp [Verdict.result, Verdict.apply, validateFail]

/-- C3, amended, at the value "15" with `max = 10` (the parsed value 15 exceeds
10 although the length 2 does not) and at the value "5" with `min = 10`. The
numeral "9007199254740993" parses to the double 9007199254740992, which does
not exceed `max = 9007199254740992`: that value passes. -/
theorem C3_validate_number_metric_witness :
    (jsLength "15" = 2 ∧ parseFloat (.str "15") = .fin ⟨15, 0⟩ ∧
      parseFloat (.str "9007199254740993") = .fin ⟨9007199254740992, 0⟩ ∧
      (validate demoEnv { type := "number", max := some ⟨9007199254740992, 0⟩ }
        ⟨.undefined, none⟩ (demoState "number") (.str "9007199254740993")).1 = true) ∧
    (verdict demoEnv { type := "number", max := some ⟨10, 0⟩ } (demoState "number") (.str "15")
        = .fail "max.number" (.num (.fin ⟨10, 0⟩)) ∧
      (validate demoEnv { type := "number", max := some ⟨10, 0⟩ } ⟨.undefined, none⟩
        (demoState "number") (.str "15")).1 = false ∧
      (validate demoEnv { type := "number", max := some ⟨10, 0⟩ } ⟨.undefined, none⟩
        (demoState "number") (.str "15")).2.hasError = true ∧
      (validate demoEnv { type := "number", max := some ⟨10, 0⟩ } ⟨.undefined, none⟩
        (demoState "number") (.str "15")).2.errorText = .str "Must not exceed 10") ∧
    (verdict demoEnv { type := "number", min := some ⟨10, 0⟩ } (demoState "number") (.str "5")
        = .fail "min.number" (.num (.fin ⟨10, 0⟩)) ∧
      (validate demoEnv { type := "number", min := some ⟨10, 0⟩ } ⟨.undefined, none⟩
        (demoState "number") (.str "5")).1 = false ∧
      (validate demoEnv { type := "number", min := some ⟨10, 0⟩ } ⟨.undefined, none⟩
        (demoState "number") (.str "5")).2.hasError = true ∧
      (validate demoEnv { type := "number", min := some ⟨10, 0⟩ } ⟨.undefined, none⟩
        (demoState "number") (.str "5")).2.errorText = .str "Must not be below 10") :=
  ⟨by decide,
    (C3_validate_number_metric demoEnv { type := "number", max := some ⟨10, 0⟩ }
      ⟨.undefined, none⟩ (demoState "number") (.str "15") "15"
      (by decide) (by decide) (by decide) (by decide) (by intro r h; cases h)
      (by
        intro reg h
        have h2 : demoRegs "number" = some reg := h
        simp only [demoRegs, if_true, Option.some.injEq] at h2
        subst h2
        decide)).2.1 (by decide) (by decide),
    (C3_validate_number_metric demoEnv { type := "number", min := some ⟨10, 0⟩ }
      ⟨.undefined, none⟩ (demoState "number") (.str "5") "5"
      (by decide) (by decide) (by decide) (by decide) (by intro r h; cases h)
      (by
        intro reg h
        have h2 : demoRegs "number" = some reg := h
        simp only [demoRegs, if_true, Option.some.injEq] at h2
        subst h2
        decide)).2.2 (by decide) (by decide) (by decide)⟩

/-! ## C4 -/

/-- The metric of an array field is the number of elements `toArray` returns:
on a field that is not read-only, with value type `array`, for a non-empty
string value that passes the required, `onValidate` and format checks,
`validate` passes when the count is neither below `min` nor above `max`, and
fails with kind `max.array` when the count exceeds a `max` other than zero. -/
theorem validate_array_metric (env : Env) (props : Props) (st : State) (s : String)
    (hro : truthy props.readOnly = false)
    (hvt : st.valueType = some "array")
    (hne : s ≠ "")
    (hon : ∀ r, props.onValidate = some r → truthy r = true)
    (hfmt : ∀ reg, env.regs props.type = some reg → reg (.str s) = true) :
    metric env props st (.str s) = JsNum.ofNat (env.toArray (.str s) props.sep).length ∧
    (JsNum.lt (JsNum.ofNat (env.toArray (.str s) props.sep).length) props.min.toNum = false →
      JsNum.lt props.max.toNum (JsNum.ofNat (env.toArray (.str s) props.sep).length) = false →
      verdict env props st (.str s) = .pass) ∧
    (props.max.truthy = true →
      JsNum.lt props.max.toNum (JsNum.ofNat (env.toArray (.str s) props.sep).length) = true →
      verdict env props st (.str s) = .fail "max.array" props.max.toVal) := by
  have hmet : metric env props st (.str s)
      = JsNum.ofNat (env.toArray (.str s) props.sep).length := by
    simp [metric, hvt]
  have h := verdict_bounds_nonzero env props st (.str s) hro (str_checks props s hne).1 hon
    (str_checks props s hne).2 hfmt
  rw [hmet, hvt] at h
  refine ⟨hmet, ?_, h.1⟩
  intro hlo hhi
  exact h.2.2 (by rw [hhi]; simp) (by rw [hlo]; simp)

/-- C4 at an array field with separator "," and value "a,b,c", which has three
elements. With `min = 2` it passes for `max = 5` and fails with kind
`max.array` for `max = 2`; with `max = 0` the count 3 exceeds the bound and
`validate` still returns true, with no error set. -/
theorem C4_array_max_zero_passes :
    (demoEnv.toArray (.str "a,b,c") (.str ",")).length = 3 ∧
    verdict demoEnv { type := "tags", sep := .str ",", min := some ⟨2, 0⟩, max := some ⟨5, 0⟩ }
      (demoState "array") (.str "a,b,c") = .pass ∧
    verdict demoEnv { type := "tags", sep := .str ",", min := some ⟨2, 0⟩, max := some ⟨2, 0⟩ }
      (demoState "array") (.str "a,b,c") = .fail "max.array" (.num (.fin ⟨2, 0⟩)) ∧
    Dec.lt ⟨0, 0⟩ (Dec.ofInt 3) = true ∧
    (validate demoEnv { type := "tags", sep := .str ",", max := some ⟨0, 0⟩ } ⟨.undefined, none⟩
      (demoState "array") (.str "a,b,c")).1 = true ∧
    (validate demoEnv { type := "tags", sep := .str ",", max := some ⟨0, 0⟩ } ⟨.undefined, none⟩
      (demoState "array") (.str "a,b,c")).2.hasError = false := by
  decide

/-! ## C5 -/

/-- C5: `register` is a total function of the registry (it raises no error);
registering the type name `t` with one descriptor and then with a second one
leaves `t` resolving to the second; one call with a list of type names makes
every name of the list resolve to the supplied descriptor; and the value type
is `string` when the argument is omitted. This holds for every type name, the
name `__proto__` and the names of inherited methods included. -/
theorem C5_register_last_write_wins (controls : Registry) :
    (∀ (t : String) (r1 r2 : RenderFn) (c1 c2 : Component) (v1 v2 : Option String),
      (register (register controls (.one t) r1 c1 v1) (.one t) r2 c2 v2).get t
        = .descriptor ⟨r2, c2, v2.getD "string"⟩) ∧
    (∀ (ts : List String) (r : RenderFn) (c : Component) (v : Option String) (t : String),
      t ∈ ts →
      (register controls (.many ts) r c v).get t = .descriptor ⟨r, c, v.getD "string"⟩) ∧
    (∀ (t : String) (r : RenderFn) (c : Component),
      (register controls (.one t) r c none).get t = .descriptor ⟨r, c, "string"⟩) := by
  refine ⟨?_, ?_, ?_⟩
  · intro t r1 r2 c1 c2 v1 v2
    exact get_set_same _ t _
  · intro ts r c v t ht
    exact foldl_set_of_mem _ ts controls t ht
  · intro t r c
    exact get_set_same _ t _

/-- C5 on the registry of the examples: `text` is registered a second time, and
a list of two names is registered with the value type omitted. -/
theorem C5_register_last_write_wins_witness :
    (register (register demoControls (.one "text") "renderA" "A" (some "number"))
      (.one "text") "renderB" "B" (some "array")).get "text"
      = .descriptor ⟨"renderB", "B", "array"⟩ ∧
    (register demoControls (.many ["date", "time"]) "renderDate" "Datetime" none).get "time"
      = .descriptor ⟨"renderDate", "Datetime", "string"⟩ :=
  ⟨(C5_register_last_write_wins demoControls).1 "text" "renderA" "renderB" "A" "B"
      (some "number") (some "array"),
    (C5_register_last_write_wins demoControls).2.1 ["date", "time"] "renderDate" "Datetime" none
      "time" (by decide)⟩

/-! ## C6 -/

theorem getHint_eq_append (env : Env) (hints : List String) (key : String) (value : JsVal) :
    getHint env hints key value = hints ++ localizedHint env key value := by
  unfold localizedHint getHint
  cases getLang env ("validation.hints." ++ key) <;> simp
  split <;> simp

theorem localizedHint_of_template (env : Env) (key t : String) (value : JsVal)
    (h : env.lang ("validation.hints." ++ key) = some t) (ht : t ≠ "") :
    localizedHint env key value = [env.format t value] := by
  simp [localizedHint, getHint, getLang, h, truthy, ht]

theorem localizedHint_of_missing (env : Env) (key : String) (value : JsVal)
    (h : env.lang ("validation.hints." ++ key) = none) :
    localizedHint env key value = [] := by
  simp [localizedHint, getHint, getLang, h]

theorem toDouble_three : toDouble ⟨3, 0⟩ = .fin ⟨3, 0⟩ := by decide

/-- C6, as stated, fails: for a required `email` field with `min = 3`, no max
and no tip, under a table that has a hint for `email`, the hint text holds the
type hint between the required hint and the min hint. -/
theorem C6_counterexample :
    (setHint demoEnv { type := "email", required := .bool true, min := some (Dec.ofInt 3) }
      (demoState "string")
      { type := "email", required := .bool true, min := some (Dec.ofInt 3) }).hintText
      = .str "Required, Email address, At least 3" ∧
    localizedHint demoEnv "required" .undefined = ["Required"] ∧
    localizedHint demoEnv "min.string" (.num (.fin (Dec.ofInt 3))) = ["At least 3"] ∧
    (JsVal.str "Required, Email address, At least 3" ≠ .str "Required, At least 3") := by
  decide

/-- C6, amended: for props with a truthy `required`, `min = 3`, no max and no
tip, whose declared type is the current type of the component (as at mount),
the hint text is the ", "-join of the localized `required` hint, the localized
hint of the declared type and the localized `min.<valueType>` hint formatted
with 3, in that order, each present only when the table has a non-empty
template under its key. It is the required hint followed by the min hint, and
nothing else, when the table has these two templates and none for the type. -/
theorem C6_setHint_required_min (env : Env) (thisProps : Props) (st : State) (props : Props)
    (htype : thisProps.type = props.type)
    (hreq : truthy props.required = true) (hmin : props.min = some (Dec.ofInt 3))
    (hmax : props.max = none) (htip : truthy props.tip = false) :
    (setHint env thisProps st props).hintText =
      .str (", ".intercalate
        (localizedHint env "required" .undefined
          ++ localizedHint env props.type .undefined
          ++ localizedHint env ("min." ++ valueTypeText st.valueType)
            (.num (.fin (Dec.ofInt 3))))) ∧
    (∀ tr tm : String,
      env.lang ("validation.hints." ++ "required") = some tr → tr ≠ "" →
      env.lang ("validation.hints." ++ ("min." ++ valueTypeText st.valueType)) = some tm →
      tm ≠ "" →
      env.lang ("validation.hints." ++ props.type) = none →
      (setHint env thisProps st props).hintText =
        .str (env.format tr .undefined ++ ", " ++ env.format tm (.num (.fin (Dec.ofInt 3))))) := by
  have main : (setHint env thisProps st props).hintText =
      .str (", ".intercalate
        (localizedHint env "required" .undefined
          ++ localizedHint env props.type .undefined
          ++ localizedHint env ("min." ++ valueTypeText st.valueType)
            (.num (.fin (Dec.ofInt 3))))) := by
    simp [setHint, htip, hreq, hmin, hmax, htype, Bound.truthy, Bound.toVal, Bound.toNum,
      JsNum.nonzero, Dec.ofInt, toDouble_three, getHint_eq_append]
  refine ⟨main, ?_⟩
  intro tr tm h1 h1n h2 h2n h3
  rw [main, localizedHint_of_template env _ tr _ h1 h1n,
    localizedHint_of_template env _ tm _ h2 h2n, localizedHint_of_missing env _ _ h3]
  simp [String.intercalate, String.intercalate.go, String.append_assoc]

/-- C6, amended, at a required text field with `min = 3`: the table of the
examples has no hint for `text`. -/
theorem C6_setHint_required_min_witness :
    (setHint demoEnv { required := .bool true, min := some (Dec.ofInt 3) } (demoState "string")
      { required := .bool true, min := some (Dec.ofInt 3) }).hintText
      = .str "Required, At least 3" :=
  (C6_setHint_required_min demoEnv { required := .bool true, min := some (Dec.ofInt 3) }
    (demoState "string") { required := .bool true, min := some (Dec.ofInt 3) }
    rfl (by decide) rfl rfl (by decide)).2 "Required" "At least"
    (by decide) (by decide) (by decide) (by decide) (by decide)

/-! ## C7 -/

/-- At mount (the props passed are the current props), when the tip is absent
or truthy, a bound that is set is other than zero and no template of the table
is empty, `setHint` computes the reference derivation. -/
theorem setHint_eq_hintReference (env : Env) (st : State) (p : Props)
    (htip : p.tip = .undefined ∨ truthy p.tip = true)
    (hmin : ∀ d, p.min = some d → p.min.truthy = true)
    (hmax : ∀ d, p.max = some d → p.max.truthy = true)
    (hlang : ∀ key t, env.lang key = some t → t ≠ "") :
    (setHint env p st p).hintText = hintReference env p (valueTypeText st.valueType) := by
  have entry : ∀ key value, localizedHint env key value =
      (match env.lang ("validation.hints." ++ key) with
        | some t => [env.format t value]
        | none => []) := by
    intro key value
    cases h : env.lang ("validation.hints." ++ key) with
    | none => exact localizedHint_of_missing env key value h
    | some t => exact localizedHint_of_template env key t value h (hlang _ t h)
  rcases htip with htip | htip
  · have hmin2 : (if p.min.truthy = true then
          localizedHint env ("min." ++ valueTypeText st.valueType) p.min.toVal else [])
        = (match p.min with
          | some d => localizedHint env ("min." ++ valueTypeText st.valueType) (.num (toDouble d))
          | none => []) := by
      cases h : p.min with
      | none => rfl
      | some d =>
        have ht := hmin d h
        rw [h] at ht
        simp [ht, Bound.toVal]
    have hmax2 : (if p.max.truthy = true then
          localizedHint env ("max." ++ valueTypeText st.valueType) p.max.toVal else [])
        = (match p.max with
          | some d => localizedHint env ("max." ++ valueTypeText st.valueType) (.num (toDouble d))
          | none => []) := by
      cases h : p.max with
      | none => rfl
      | some d =>
        have ht := hmax d h
        rw [h] at ht
        simp [ht, Bound.toVal]
    have lhs : (setHint env p st p).hintText = .str (", ".intercalate
        ((if truthy p.required = true then localizedHint env "required" .undefined else [])
          ++ localizedHint env p.type .undefined
          ++ (if p.min.truthy = true then
              localizedHint env ("min." ++ valueTypeText st.valueType) p.min.toVal else [])
          ++ (if p.max.truthy = true then
              localizedHint env ("max." ++ valueTypeText st.valueType) p.max.toVal else []))) := by
      unfold setHint
      rw [htip]
      by_cases h1 : truthy p.required = true <;> by_cases h2 : p.min.truthy = true <;>
        by_cases h3 : p.max.truthy = true <;>
        simp [truthy, h1, h2, h3, getHint_eq_append]
    rw [lhs, hmin2, hmax2]
    unfold hintReference
    simp only [htip, ne_eq, not_true_eq_false, if_false]
    simp only [entry]
  · have hne : p.tip ≠ .undefined := by
      intro h
      rw [h] at htip
      cases htip
    simp [setHint, hintReference, htip, hne]

/-- C7 at two failing inputs. On a props change from a `text` field to an
`email` field, `setHint(nextProps)` keys the type hint by the type of the
current props: the hint text is empty, where the reference derivation on the
next props gives the `email` hint. And at mount with `min = 0` the min hint of
the reference derivation is left out. -/
theorem C7_setHint_differs_from_reference :
    ((setHint demoEnv { type := "text" } (demoState "string") { type := "email" }).hintText
        = .str "" ∧
      hintReference demoEnv { type := "email" } "string" = .str "Email address") ∧
    ((setHint demoEnv { min := some (Dec.ofInt 0) } (demoState "string")
        { min := some (Dec.ofInt 0) }).hintText = .str "" ∧
      hintReference demoEnv { min := some (Dec.ofInt 0) } "string" = .str "At least 0") := by
  decide

/-! ## C8 -/

/-- C8: for every registry and every props whose declared type is not
registered in it (the read `controls[type]` yields `undefined`), constructing
the component throws (the state initialiser reads `controls[type].valueType`),
while `getControl` on the same props returns `null` with the warning. -/
theorem C8_unregistered_type_throws (controls : Registry) (props : Props) (st : State)
    (override : Option (Option Nat)) (h : controls.get props.type = .undefined) :
    initialState controls props
      = .error "TypeError: Cannot read property valueType of undefined" ∧
    getControl controls props st override
      = .ok (.null (props.type ++ " was not registed.")) := by
  simp [initialState, getControl, h, Resolved.valueTypeField, Resolved.truthy]

/-- C8 at a `date` field under the registry of the examples, which has no
entry for `date`. -/
theorem C8_unregistered_type_throws_witness :
    initialState demoControls { type := "date" }
      = .error "TypeError: Cannot read property valueType of undefined" ∧
    getControl demoControls { type := "date" } (demoState "string") none
      = .ok (.null "date was not registed.") :=
  C8_unregistered_type_throws demoControls { type := "date" } (demoState "string") none
    (by decide)

/-! ## C9 -/

theorem validate_error_inv (env : Env) (props : Props) (ctl : Control) (st : State) (v : JsVal)
    (h : st.hasError = false → truthy st.errorText = false) :
    (validate env props ctl st v).2.hasError = false →
      truthy (validate env props ctl st v).2.errorText = false := by
  rw [validate_eq]
  cases verdict env props
    { st with hasValue := .bool (!(env.isEmpty (validatedValue ctl v))) }
    (validatedValue ctl v) with
  | readOnly => exact h
  | fail kind arg => simp [Verdict.apply, validateFail]
  | pass => simp [Verdict.apply, validatePass, truthy]

theorem reachable_error_inv (env : Env) (controls : Registry) (props : Props) (st : State)
    (hr : Reachable env controls props st) :
    st.hasError = false → truthy st.errorText = false := by
  induction hr with
  | init props st h =>
    intro _
    unfold initialState at h
    cases hc : (controls.get props.type).valueTypeField with
    | error e => simp [hc] at h
    | ok valueType =>
      simp only [hc, Except.ok.injEq] at h
      subst h
      rfl
  | setHint props next st _ ih =>
    unfold FormControl.setHint
    split <;> exact ih
  | validate props st ctl value _ ih => exact validate_error_inv env props ctl st value ih
  | setValue props st ctl value _ ih =>
    exact validate_error_inv env props (ctl.afterSet value) st value ih
  | handleChange props st ctl value _ ih =>
    exact validate_error_inv env props ctl st ctl.value ih
  | handleFocus props st focused _ ih => exact ih

/-- C9, as stated, fails: the required text field of the examples, whose
`onValidate` returns false and which has no tip, reaches by construction,
`setHint` and `validate` a state with `hasError = true` and no error text, and
both layouts render the hint span and no error span. -/
theorem C9_counterexample :
    Reachable demoEnv demoControls demoRejecting demoRejected ∧
    demoRejected.hasError = true ∧
    demoRejected.errorText = .undefined ∧
    (renderInline demoControls demoRejecting demoRejected "pure-control-group").map View.message
      = .ok (.hintSpan (.str "Required")) ∧
    (renderStacked demoControls demoRejecting demoRejected "pure-control-group").map View.message
      = .ok (.hintSpan (.str "Required")) := by
  refine ⟨?_, by decide, by decide, by rfl, by rfl⟩
  exact Reachable.validate _ _ _ _
    (Reachable.setHint _ _ _ (Reachable.init demoRejecting (demoState "string") (by rfl)))

/-- C9, amended: in every reachable state the error text and the hint are
mutually exclusive in the rendered output. When `errorText` is non-empty
(truthy), `hasError` is true and the message is the error span with
`errorText`, whatever `hintText` is: `renderInline` and `renderStacked` put
this span and no hint span after the control whenever `getControl` returns
(they throw only when it throws). When `errorText` is empty the message is the
hint span for a non-empty `hintText`, also in a state with `hasError = true`. -/
theorem C9_error_text_suppresses_hint (env : Env) (controls : Registry) (props : Props)
    (st : State) (hr : Reachable env controls props st) :
    (truthy st.errorText = true →
      st.hasError = true ∧
      message st = .errorSpan st.errorText ∧
      (∀ className, (renderInline controls props st className).map View.message =
        (getControl controls props st
          (some (if widthTruthy props.width then some 24 else none))).map
          (fun _ => Message.errorSpan st.errorText)) ∧
      (∀ className, (renderStacked controls props st className).map View.message =
        (getControl controls props st none).map (fun _ => Message.errorSpan st.errorText))) ∧
    (truthy st.errorText = false → truthy st.hintText = true →
      message st = .hintSpan st.hintText) := by
  refine ⟨?_, fun he hh => by simp [message, he, hh]⟩
  intro he
  have hmsg : message st = .errorSpan st.errorText := by simp [message, he]
  refine ⟨?_, hmsg, ?_, ?_⟩
  · cases hh : st.hasError with
    | true => rfl
    | false =>
      have := reachable_error_inv env controls props st hr hh
      rw [he] at this
      cases this
  · intro className
    unfold renderInline
    cases getControl controls props st (some (if widthTruthy props.width then some 24 else none))
      <;> simp [Except.map, View.message, hmsg]
  · intro className
    unfold renderStacked
    cases getControl controls props st none <;> simp [Except.map, View.message, hmsg]

/-- C9, amended, at a required text field validated on an empty value: the
error span shows the tip for `required` and the hint "Required" is hidden. -/
theorem C9_error_text_suppresses_hint_witness :
    (validate demoEnv { required := .bool true } ⟨.undefined, none⟩
      (setHint demoEnv { required := .bool true } (demoState "string") { required := .bool true })
      .undefined).2.hintText = .str "Required" ∧
    message (validate demoEnv { required := .bool true } ⟨.undefined, none⟩
      (setHint demoEnv { required := .bool true } (demoState "string") { required := .bool true })
      .undefined).2 = .errorSpan (.str "Cannot be empty") :=
  ⟨by decide,
    (C9_error_text_suppresses_hint demoEnv demoControls { required := .bool true }
      (validate demoEnv { required := .bool true } ⟨.undefined, none⟩
        (setHint demoEnv { required := .bool true } (demoState "string")
          { required := .bool true })
        .undefined).2
      (Reachable.validate _ _ _ _
        (Reachable.setHint _ _ _
          (Reachable.init { required := .bool true } (demoState "string") (by rfl))))).1
      (by decide) |>.2.1⟩

/-! ## C10 -/

/-- On a field that is not read-only the state after `validate` agrees with the
boolean returned, whatever the prior state: true comes with `hasError = false`
and `errorText = ''` (the paths of lines 121-124 and 158-159 call
`validatePass` first), false with `hasError = true`. -/
theorem validate_state_agrees (env : Env) (props : Props) (ctl : Control) (st : State)
    (v : JsVal) (hro : truthy props.readOnly = false) :
    ((validate env props ctl st v).1 = true →
      (validate env props ctl st v).2.hasError = false ∧
      (validate env props ctl st v).2.errorText = .str "") ∧
    ((validate env props ctl st v).1 = false →
      (validate env props ctl st v).2.hasError = true) := by
  have hne := verdict_ne_readOnly env props
    { st with hasValue := .bool (!(env.isEmpty (validatedValue ctl v))) }
    (validatedValue ctl v) hro
  rw [validate_eq]
  cases hv : verdict env props
    { st with hasValue := .bool (!(env.isEmpty (validatedValue ctl v))) }
    (validatedValue ctl v) with
  | readOnly => exact absurd hv hne
  | fail kind arg => simp [Verdict.result, Verdict.apply, validateFail]
  | pass => simp [Verdict.result, Verdict.apply, validatePass]

/-- C10 at a required text field that failed on an empty value (`hasError` is
true, `errorText` is "Cannot be empty") and is then declared read-only:
`validate` on the value "abc" returns true and the state still holds
`hasError = true` and the error text. On the same field not declared read-only
the same call returns true and clears both. -/
theorem C10_readOnly_keeps_stale_error :
    ((validate demoEnv { required := .bool true } ⟨.undefined, none⟩ (demoState "string")
        .undefined).2.hasError = true ∧
      (validate demoEnv { required := .bool true } ⟨.undefined, none⟩ (demoState "string")
        .undefined).2.errorText = .str "Cannot be empty") ∧
    ((validate demoEnv { required := .bool true, readOnly := .bool true } ⟨.str "abc", none⟩
        (validate demoEnv { required := .bool true } ⟨.undefined, none⟩ (demoState "string")
          .undefined).2 .undefined).1 = true ∧
      (validate demoEnv { required := .bool true, readOnly := .bool true } ⟨.str "abc", none⟩
        (validate demoEnv { required := .bool true } ⟨.undefined, none⟩ (demoState "string")
          .undefined).2 .undefined).2.hasError = true ∧
      (validate demoEnv { required := .bool true, readOnly := .bool true } ⟨.str "abc", none⟩
        (validate demoEnv { required := .bool true } ⟨.undefined, none⟩ (demoState "string")
          .undefined).2 .undefined).2.errorText = .str "Cannot be empty") ∧
    ((validate demoEnv { required := .bool true } ⟨.str "abc", none⟩
        (validate demoEnv { required := .bool true } ⟨.undefined, none⟩ (demoState "string")
          .undefined).2 .undefined).1 = true ∧
      (validate demoEnv { required := .bool true } ⟨.str "abc", none⟩
        (validate demoEnv { required := .bool true } ⟨.undefined, none⟩ (demoState "string")
          .undefined).2 .undefined).2.hasError = false ∧
      (validate demoEnv { required := .bool true } ⟨.str "abc", none⟩
        (validate demoEnv { required := .bool true } ⟨.undefined, none⟩ (demoState "string")
          .undefined).2 .undefined).2.errorText = .str "") := by
  decide

/-! ## C11 -/

/-- On a field that is not read-only and not required, whose `onValidate` is
absent or returns a truthy value, a validated value that is `undefined`, `null`
or the empty string passes, whatever the bounds and the declared type are. -/
theorem validate_empty_passes (env : Env) (props : Props) (ctl : Control) (st : State)
    (v : JsVal)
    (hro : truthy props.readOnly = false) (hreq : truthy props.required = false)
    (hon : ∀ r, props.onValidate = some r → truthy r = true)
    (hv : validatedValue ctl v = .undefined ∨ validatedValue ctl v = .null
      ∨ validatedValue ctl v = .str "") :
    (validate env props ctl st v).1 = true ∧
    (validate env props ctl st v).2.hasError = false := by
  have hver : ∀ st2 : State, verdict env props st2 (validatedValue ctl v) = .pass := by
    intro st2
    unfold verdict
    rw [onValidate_passes props hon]
    rcases hv with h | h | h <;> simp [h, hro, hreq]
  rw [validate_eq, hver]
  simp [Verdict.result, Verdict.apply, validatePass]

/-- C11 at a field that is neither read-only nor required, has no `onValidate`
and has `min = 1`, whose control reports the zero-length array: the array is
an empty value (the required test of line 111 and `isEmpty` count it as one),
yet `validate` returns false with the fail kind `min.string`, and with
`min.array` on an array field. The empty string passes on the same fields. -/
theorem C11_empty_array_fails_min :
    (emptyValue (.arr []) = true ∧ demoEnv.isEmpty (.arr []) = true) ∧
    verdict demoEnv { min := some ⟨1, 0⟩ } (demoState "string") (validatedValue ⟨.arr [], none⟩ .undefined)
      = .fail "min.string" (.num (.fin ⟨1, 0⟩)) ∧
    (validate demoEnv { min := some ⟨1, 0⟩ } ⟨.arr [], none⟩ (demoState "string") .undefined).1
      = false ∧
    (validate demoEnv { min := some ⟨1, 0⟩ } ⟨.arr [], none⟩ (demoState "string") (.arr [])).1
      = false ∧
    verdict demoEnv { type := "tags", sep := .str ",", min := some ⟨1, 0⟩ } (demoState "array")
      (.arr []) = .fail "min.array" (.num (.fin ⟨1, 0⟩)) ∧
    (validate demoEnv { min := some ⟨1, 0⟩ } ⟨.str "", none⟩ (demoState "string") .undefined).1
      = true := by
  decide

/-! ## C12 -/

/-- C12 at bounds equal to zero. A number field with `min = 0` holding "-5":
the metric -5 is below the bound, yet `validate` returns true with no error.
A number field with `max = 0` holding "15": the metric 15 exceeds the bound,
yet `validate` returns true. With the bounds 1 and -1 the same values fail
with `min.number` and `max.number`. -/
theorem C12_zero_bound_is_skipped :
    (metric demoEnv { type := "number", min := some ⟨0, 0⟩ } (demoState "number") (.str "-5")
        = .fin ⟨-5, 0⟩ ∧
      JsNum.lt (.fin ⟨-5, 0⟩) (.fin ⟨0, 0⟩) = true ∧
      (validate demoEnv { type := "number", min := some ⟨0, 0⟩ } ⟨.undefined, none⟩
        (demoState "number") (.str "-5")).1 = true ∧
      (validate demoEnv { type := "number", min := some ⟨0, 0⟩ } ⟨.undefined, none⟩
        (demoState "number") (.str "-5")).2.hasError = false) ∧
    (JsNum.lt (.fin ⟨0, 0⟩) (metric demoEnv { type := "number", max := some ⟨0, 0⟩ }
        (demoState "number") (.str "15")) = true ∧
      (validate demoEnv { type := "number", max := some ⟨0, 0⟩ } ⟨.undefined, none⟩
        (demoState "number") (.str "15")).1 = true) ∧
    (verdict demoEnv { type := "number", min := some ⟨1, 0⟩ } (demoState "number") (.str "-5")
        = .fail "min.number" (.num (.fin ⟨1, 0⟩)) ∧
      verdict demoEnv { type := "number", max := some ⟨-1, 0⟩ } (demoState "number") (.str "15")
        = .fail "max.number" (.num (.fin ⟨-1, 0⟩))) := by
  decide

/-! ## C13 -/

/-- For a truthy argument the value validated is the argument itself, and the
outcome of `validate` and the state after `setValue` do not depend on the
underlying control. -/
theorem validate_truthy_argument (env : Env) (props : Props) (c1 c2 : Control) (st : State)
    (v : JsVal) (hv : truthy v = true) :
    validatedValue c1 v = v ∧
    validate env props c1 st v = validate env props c2 st v ∧
    (setValue env props c1 st v).2 = (setValue env props c2 st v).2 := by
  have h : ∀ c : Control, validatedValue c v = v := by
    intro c
    simp [validatedValue, jsOr, hv]
  refine ⟨h c1, ?_, ?_⟩
  · rw [validate_eq, validate_eq, h c1, h c2]
  · simp only [setValue]
    rw [validate_eq, validate_eq, h, h]

/-- C13 at the supplied arguments `''` and `0` on a required field and two
controls without `setValue` that differ only in the value they hold ('abc' and
`''`). The value validated is the one the control holds, not the argument:
`validate('')` and `validate(0)` return true on the first control and false on
the second, and `setValue('')` leaves `hasError` false on the first and true
on the second. -/
theorem C13_falsy_argument_reads_control :
    (validatedValue ⟨.str "abc", none⟩ (.str "") = .str "abc" ∧
      validatedValue ⟨.str "abc", none⟩ (.num (.fin ⟨0, 0⟩)) = .str "abc") ∧
    ((validate demoEnv { required := .bool true } ⟨.str "abc", none⟩ (demoState "string")
        (.str "")).1 = true ∧
      (validate demoEnv { required := .bool true } ⟨.str "", none⟩ (demoState "string")
        (.str "")).1 = false) ∧
    ((validate demoEnv { required := .bool true } ⟨.str "abc", none⟩ (demoState "string")
        (.num (.fin ⟨0, 0⟩))).1 = true ∧
      (validate demoEnv { required := .bool true } ⟨.str "", none⟩ (demoState "string")
        (.num (.fin ⟨0, 0⟩))).1 = false) ∧
    ((setValue demoEnv { required := .bool true } ⟨.str "abc", none⟩ (demoState "string")
        (.str "")).2.hasError = false ∧
      (setValue demoEnv { required := .bool true } ⟨.str "", none⟩ (demoState "string")
        (.str "")).2.hasError = true) := by
  decide

/-! ## C14 -/

/-- C14, as stated, fails. Without a template for the kind and without a
declared tip the stored `errorText` is `undefined`, not the empty string; and
under a table whose template for the kind is empty, the declared tip is stored
where the formatted template is " x". -/
theorem C14_counterexample :
    (demoEnv.lang ("validation.tips." ++ "email") = none ∧
      (validateFail demoEnv {} (demoState "string") "email" (.str "x")).errorText = .undefined ∧
      JsVal.undefined ≠ .str "") ∧
    (demoEmptyTemplates.lang ("validation.tips." ++ "email") = some "" ∧
      demoEmptyTemplates.format "" (.str "x") = " x" ∧
      (validateFail demoEmptyTemplates { tip := .str "Check" } (demoState "string") "email"
        (.str "x")).errorText = .str "Check") := by
  decide

/-- C14, amended: for every fail kind `k`, offending value `x`, localization
table and declared tip, `validateFail(k, x)` sets `hasError` and stores as
`errorText` the template at `validation.tips.<k>` formatted with `x` when that
template exists and neither it nor the formatted text is empty; otherwise the
declared tip, which is `undefined` when no tip is declared. -/
theorem C14_validateFail_errorText (env : Env) (props : Props) (st : State) (k : String)
    (x : JsVal) :
    (validateFail env props st k x).hasError = true ∧
    (∀ t, env.lang ("validation.tips." ++ k) = some t → t ≠ "" → env.format t x ≠ "" →
      (validateFail env props st k x).errorText = .str (env.format t x)) ∧
    (∀ t, env.lang ("validation.tips." ++ k) = some t → (t = "" ∨ env.format t x = "") →
      (validateFail env props st k x).errorText = props.tip) ∧
    (env.lang ("validation.tips." ++ k) = none →
      (validateFail env props st k x).errorText = props.tip) := by
  refine ⟨rfl, ?_, ?_, ?_⟩
  · intro t ht hne hf
    simp [validateFail, getTip, getLang, ht, jsOr, truthy, hne, hf]
  · intro t ht h
    rcases h with h | h
    · subst h
      simp [validateFail, getTip, getLang, ht, jsOr, truthy]
    · by_cases hne : t = ""
      · subst hne
        simp [validateFail, getTip, getLang, ht, jsOr, truthy]
      · simp [validateFail, getTip, getLang, ht, jsOr, truthy, hne, h]
  · intro h
    simp [validateFail, getTip, getLang, h, jsOr, truthy]

/-- C14, amended, at the kind `required`, which has a template in the table of
the examples, and at the kind `email`, which has none, on a field with the tip
"Check" and on a field without tip. -/
theorem C14_validateFail_errorText_witness :
    (validateFail demoEnv { tip := .str "Check" } (demoState "string") "required"
      .undefined).errorText = .str "Cannot be empty" ∧
    (validateFail demoEnv { tip := .str "Check" } (demoState "string") "email"
      (.str "x")).errorText = .str "Check" ∧
    (validateFail demoEnv {} (demoState "string") "email" (.str "x")).errorText = .undefined :=
  ⟨(C14_validateFail_errorText demoEnv { tip := .str "Check" } (demoState "string") "required"
      .undefined).2.1 "Cannot be empty" (by decide) (by decide) (by decide),
    (C14_validateFail_errorText demoEnv { tip := .str "Check" } (demoState "string") "email"
      (.str "x")).2.2.2 (by decide),
    (C14_validateFail_errorText demoEnv {} (demoState "string") "email"
      (.str "x")).2.2.2 (by decide)⟩

/-! ## C15 -/

/-- C15: on a field that is not read-only and passes the required check (it is
not required, or the validated value is not empty), a supplied `onValidate`
that returns a falsy value makes `validate` return false with `hasError = true`
and the unkeyed fail kind, also when the value is empty; `errorText` is
`getTip('', value) || tip`, which is the declared tip as the table has no
template for the empty kind. -/
theorem C15_validate_onValidate_fails (env : Env) (props : Props) (ctl : Control) (st : State)
    (v r : JsVal)
    (hro : truthy props.readOnly = false)
    (hreq : (truthy props.required && emptyValue (validatedValue ctl v)) = false)
    (hon : props.onValidate = some r) (hr : truthy r = false) :
    verdict env props st (validatedValue ctl v) = .fail "" (validatedValue ctl v) ∧
    (validate env props ctl st v).1 = false ∧
    (validate env props ctl st v).2.hasError = true ∧
    (validate env props ctl st v).2.errorText =
      jsOr (getTip env "" (validatedValue ctl v)) props.tip ∧
    (env.lang "validation.tips." = none →
      (validate env props ctl st v).2.errorText = props.tip) := by
  have hver : ∀ st2 : State,
      verdict env props st2 (validatedValue ctl v) = .fail "" (validatedValue ctl v) := by
    intro st2
    unfold emptyValue at hreq
    unfold verdict
    rw [hreq]
    simp [hro, hon, hr]
  refine ⟨hver st, ?_⟩
  rw [validate_eq, hver]
  refine ⟨rfl, rfl, rfl, ?_⟩
  intro h
  simp [Verdict.apply, validateFail, getTip, getLang, h, jsOr, truthy]

/-- C15 at a field that is not required, has the tip "Check it" and holds the
empty string, and at a required field holding "abc". -/
theorem C15_validate_onValidate_fails_witness :
    ((validate demoEnv { tip := .str "Check it", onValidate := some (.bool false) }
        ⟨.str "", none⟩ (demoState "string") .undefined).1 = false ∧
      (validate demoEnv { tip := .str "Check it", onValidate := some (.bool false) }
        ⟨.str "", none⟩ (demoState "string") .undefined).2.errorText = .str "Check it") ∧
    (validate demoEnv
      { required := .bool true, tip := .str "Check it", onValidate := some (.bool false) }
      ⟨.undefined, none⟩ (demoState "string") (.str "abc")).2.hasError = true :=
  ⟨⟨(C15_validate_onValidate_fails demoEnv
        { tip := .str "Check it", onValidate := some (.bool false) } ⟨.str "", none⟩
        (demoState "string") .undefined (.bool false) (by decide) (by decide) rfl
        (by decide)).2.1,
      (C15_validate_onValidate_fails demoEnv
        { tip := .str "Check it", onValidate := some (.bool false) } ⟨.str "", none⟩
        (demoState "string") .undefined (.bool false) (by decide) (by decide) rfl
        (by decide)).2.2.2.2 (by decide)⟩,
    (C15_validate_onValidate_fails demoEnv
      { required := .bool true, tip := .str "Check it", onValidate := some (.bool false) }
      ⟨.undefined, none⟩ (demoState "string") (.str "abc") (.bool false) (by decide)
      (by decide) rfl (by decide)).2.2.1⟩

/-! ## C16 -/

/-- The fields `validate` leaves alone, and the value it gives `hasValue`. -/
theorem validate_frame (env : Env) (props : Props) (ctl : Control) (st : State) (v : JsVal) :
    (validate env props ctl st v).2.focused = st.focused ∧
    (validate env props ctl st v).2.value = st.value ∧
    (validate env props ctl st v).2.valueType = st.valueType ∧
    (validate env props ctl st v).2.data = st.data ∧
    (validate env props ctl st v).2.hintText = st.hintText ∧
    (validate env props ctl st v).2.hasValue = .bool (!(env.isEmpty (validatedValue ctl v))) := by
  rw [validate_eq]
  cases verdict env props
    { st with hasValue := .bool (!(env.isEmpty (validatedValue ctl v))) }
    (validatedValue ctl v) <;>
    simp [Verdict.apply, validateFail, validatePass]

/-- C16, as stated, fails: a text field constructed without a value keeps
`state.value = undefined` after a change event on a control that reports
"abc" and after `setValue("abc")`, and `copyProps` forwards `undefined`. -/
theorem C16_counterexample :
    initialState demoControls {} = .ok (demoState "string") ∧
    (handleChange demoEnv {} ⟨.str "abc", none⟩ (demoState "string") (.str "abc")).value
      = .undefined ∧
    (setValue demoEnv {} ⟨.str "", some (fun x => x)⟩ (demoState "string") (.str "abc")).1.value
      = .str "abc" ∧
    (setValue demoEnv {} ⟨.str "", some (fun x => x)⟩ (demoState "string") (.str "abc")).2.value
      = .undefined ∧
    (copyProps {} (handleChange demoEnv {} ⟨.str "abc", none⟩ (demoState "string")
      (.str "abc"))).value = .undefined := by
  refine ⟨by rfl, by decide, by decide, by decide, by decide⟩

/-- C16, amended: in every state reached from the constructed state by change
events and external sets, the state field `value` is still the `value` prop the
component was constructed with, and that initial value is what `copyProps`
forwards to the control; the current value is held by the underlying control
(after `setValue(v)` on a control with a `setValue`, the control holds what
its `setValue` made of `v`). -/
theorem C16_state_value_is_initial (env : Env) (controls : Registry) (props : Props)
    (st0 st : State) (h0 : initialState controls props = .ok st0)
    (hr : InputReachable env props st0 st) :
    st.value = props.value ∧ (copyProps props st).value = props.value := by
  have hinit : st0.value = props.value := by
    unfold initialState at h0
    cases hc : (controls.get props.type).valueTypeField with
    | error e => simp [hc] at h0
    | ok valueType =>
      simp only [hc, Except.ok.injEq] at h0
      subst h0
      rfl
  have hval : st.value = st0.value := by
    induction hr with
    | start => rfl
    | handleChange st ctl value _ ih =>
      exact ((validate_frame env props ctl st ctl.value).2.1).trans ih
    | setValue st ctl value _ ih =>
      exact ((validate_frame env props (ctl.afterSet value) st value).2.1).trans ih
  exact ⟨hval.trans hinit, hval.trans hinit⟩

/-- C16, amended, at a text field constructed with the value "a": after a
change event reporting "abc" followed by `setValue("xyz")` the state still
holds "a". -/
theorem C16_state_value_is_initial_witness :
    (setValue demoEnv { value := .str "a" } ⟨.str "abc", some (fun x => x)⟩
      (handleChange demoEnv { value := .str "a" } ⟨.str "abc", none⟩
        { demoState "string" with hasValue := .str "a", value := .str "a" } (.str "abc"))
      (.str "xyz")).2.value = .str "a" :=
  (C16_state_value_is_initial demoEnv demoControls { value := .str "a" }
    { demoState "string" with hasValue := .str "a", value := .str "a" } _ (by rfl)
    (InputReachable.setValue _ _ _ (InputReachable.handleChange _ _ _ InputReachable.start))).1

/-! ## C17 -/

mutual
theorem cloneChild_eq_marked (c : Component) :
    ∀ (n : Node) (i : Nat), n.isElementTree = true →
      cloneChild (some c) i n = .ok (n.marked c i)
  | .element type key ref attrs .absent, i, _ => by
    simp [cloneChild, Node.marked, Kids.marked]
  | .element type key ref attrs (.single (.text s)), i, _ => by
    simp [cloneChild, Node.marked, Kids.marked]
  | .element type key ref attrs (.single .null), i, h => by
    simp [Node.isElementTree, Kids.isElementTree] at h
  | .element type key ref attrs (.single (.element t2 k2 r2 a2 c2)), i, h => by
    have h2 : (Node.element t2 k2 r2 a2 c2).isElementTree = true := by
      simpa [Node.isElementTree, Kids.isElementTree] using h
    have ih := cloneChild_eq_marked c (.element t2 k2 r2 a2 c2) 0 h2
    simp [cloneChild, Node.marked, Kids.marked, ih]
  | .element type key ref attrs (.many ns), i, h => by
    have h2 : ns.isElementTree = true := by
      simpa [Node.isElementTree, Kids.isElementTree] using h
    have ih := getChildrenFrom_eq_marked c ns 0 h2
    simp [cloneChild, Node.marked, Kids.marked, ih]
  | .text _, _, h => by simp [Node.isElementTree] at h
  | .null, _, h => by simp [Node.isElementTree] at h
theorem getChildrenFrom_eq_marked (c : Component) :
    ∀ (ns : NodeList) (i : Nat), ns.isElementTree = true →
      getChildrenFrom (some c) i ns = .ok (ns.marked c i)
  | .nil, i, _ => by simp [getChildrenFrom, NodeList.marked]
  | .cons n rest, i, h => by
    have h2 : n.isElementTree = true ∧ rest.isElementTree = true := by
      simpa [NodeList.isElementTree] using h
    have ih1 := cloneChild_eq_marked c n i h2.1
    have ih2 := getChildrenFrom_eq_marked c rest (i + 1) h2.2
    simp [getChildrenFrom, NodeList.marked, ih1, ih2]
end

theorem marked_length (c : Component) :
    ∀ (ns : NodeList) (i : Nat), (ns.marked c i).length = ns.length
  | .nil, _ => by simp [NodeList.marked, NodeList.length]
  | .cons n rest, i => by
    simp [NodeList.marked, NodeList.length, marked_length c rest (i + 1)]

/-- On child markup made of elements (a text only as the sole child of an
element) `getChildren` returns, and what it returns is the reference
transformation: every level keeps its length and order, the element at
position `i` carries the key `i` and its own props, and the ref `control` is
on exactly the elements whose type is the marker. -/
theorem getChildren_eq_marked (c : Component) (ns : NodeList)
    (h : ns.isElementTree = true) :
    getChildren (.many ns) (some c) = .ok (ns.marked c 0) ∧
      (ns.marked c 0).length = ns.length :=
  ⟨getChildrenFrom_eq_marked c ns 0 h, marked_length c ns 0⟩

/-- C17 on three child trees. On the markup of the examples, with the `Input`
nested two levels deep, `getChildren` returns the tree of the same shape with
positional keys and the ref `control` on the `Input` alone (the ref of its
sibling is dropped). On a `div` whose only child is `null`, on an array with a
`null` member and on an array with a text member it throws instead of
returning a tree. -/
theorem C17_getChildren_throws_on_null_or_text :
    getChildren demoMarkup (some "Input") = .ok
      (.cons (.element "div" (some 0) none []
        (.many (.cons (.element "label" (some 0) none [] (.single (.text "Name")))
          (.cons (.element "span" (some 1) none []
            (.many (.cons (.element "Input" (some 0) (some "control") [("name", .str "n")] .absent)
              (.cons (.element "button" (some 1) none [] .absent) .nil))))
            .nil)))) .nil) ∧
    getChildren (.single (.element "div" none none [] (.single .null))) (some "Input")
      = .error "TypeError: Cannot read property type of null" ∧
    getChildren (.many (.cons .null (.cons (.element "Input" none none [] .absent) .nil)))
      (some "Input") = .error "TypeError: Cannot read property type of null" ∧
    getChildren (.single (.element "div" none none []
        (.many (.cons (.text "Name: ") (.cons (.element "Input" none none [] .absent) .nil)))))
      (some "Input") = .error "TypeError: Cannot read property hasOwnProperty of undefined" := by
  refine ⟨by rfl, by rfl, by rfl, by rfl⟩

/-! ## C18 -/

/-- C18: `handleFocus(b)` sets `focused` to `b` and leaves every other field
of the state as it was (no validation runs: `hasError`, `errorText` and
`hasValue` are untouched); `handleFocus(true)` followed by `handleFocus(false)`
gives back a state that was idle. -/
theorem C18_handleFocus_frame (st : State) (b : Bool) :
    handleFocus st b = { st with focused := b } ∧
    ((handleFocus st b).focused = b ∧
      (handleFocus st b).hasError = st.hasError ∧
      (handleFocus st b).errorText = st.errorText ∧
      (handleFocus st b).hasValue = st.hasValue ∧
      (handleFocus st b).value = st.value ∧
      (handleFocus st b).valueType = st.valueType ∧
      (handleFocus st b).data = st.data ∧
      (handleFocus st b).hintText = st.hintText) ∧
    (handleFocus (handleFocus st true) false).focused = false ∧
    (st.focused = false → handleFocus (handleFocus st true) false = st) := by
  refine ⟨rfl, ⟨rfl, rfl, rfl, rfl, rfl, rfl, rfl, rfl⟩, rfl, ?_⟩
  intro h
  cases st
  simp only [handleFocus] at *
  simp [h]

/-- C18 at the fresh state of the examples: focus and blur give it back. -/
theorem C18_handleFocus_frame_witness :
    handleFocus (handleFocus (demoState "string") true) false = demoState "string" :=
  (C18_handleFocus_frame (demoState "string") true).2.2.2 rfl

/-! ## C19 -/

/-- C19: for every state, props, control and value, `validate` leaves
`focused`, `value`, `valueType`, `data` and `hintText` as they were, on the
read-only, fail and pass paths alike, and sets `hasValue` to whether the
validated value is not empty, on every path. -/
theorem C19_validate_frame (env : Env) (props : Props) (ctl : Control) (st : State)
    (v : JsVal) :
    (validate env props ctl st v).2.focused = st.focused ∧
    (validate env props ctl st v).2.value = st.value ∧
    (validate env props ctl st v).2.valueType = st.valueType ∧
    (validate env props ctl st v).2.data = st.data ∧
    (validate env props ctl st v).2.hintText = st.hintText ∧
    (validate env props ctl st v).2.hasValue = .bool (!(env.isEmpty (validatedValue ctl v))) :=
  validate_frame env props ctl st v

/-! ## C20 -/

/-- A `register` call whose names do not include `__proto__` leaves every
name that is not among its names resolving to what it resolved to before: the
same descriptor, the same inherited method, or still `undefined`. -/
theorem register_frame (controls : Registry) (types : TypeNames) (render : RenderFn)
    (component : Component) (valueType : Option String) (t : String)
    (h : t ∉ types.toList) (hp : "__proto__" ∉ types.toList) :
    (register controls types render component valueType).get t = controls.get t :=
  foldl_set_of_not_mem _ types.toList controls t h hp

/-- C20 at a `register` call with the type name `__proto__` on the registry of
the examples. The names `render`, `component` and `valueType` are not names of
the call and resolve to nothing before it; after it they resolve to the fields
of the descriptor, which has become the prototype of `controls`, and a field
declared with the type `render` is constructed where before it threw. A call
with the names `date` and `time` leaves `number` and `render` as they were. -/
theorem C20_register_proto_changes_other_names :
    (demoControls.get "render" = .undefined ∧
      demoControls.get "component" = .undefined ∧
      demoControls.get "valueType" = .undefined ∧
      initialState demoControls { type := "render" }
        = .error "TypeError: Cannot read property valueType of undefined") ∧
    ((register demoControls (.one "__proto__") "renderX" "X" none).get "render"
        = .render "renderX" ∧
      (register demoControls (.one "__proto__") "renderX" "X" none).get "component"
        = .component "X" ∧
      (register demoControls (.one "__proto__") "renderX" "X" none).get "valueType"
        = .valueType "string" ∧
      initialState (register demoControls (.one "__proto__") "renderX" "X" none)
          { type := "render" }
        = .ok { demoState "string" with valueType := none }) ∧
    ((register demoControls (.many ["date", "time"]) "renderDate" "Datetime" none).get "number"
        = .descriptor ⟨"renderInput", "Input", "number"⟩ ∧
      (register demoControls (.many ["date", "time"]) "renderDate" "Datetime" none).get "render"
        = .undefined) := by
  refine ⟨⟨by decide, by decide, by decide, by rfl⟩,
    ⟨by decide, by decide, by decide, by rfl⟩, by decide⟩

end FormControl
